import Mathlib

/-!
Verification development for the galactic-war simulation core.

The Rust sources are shallowly embedded in Lean:
* `GW` models the current tree (`crates/lib/src`): `game_system.rs`
  (`System`), `lib.rs` (`Galaxy`, `Resources` and its partial order) and
  the database row round-trip of `db/galaxies.rs`.
* `GWLegacy` models the older tree (`src/`): its event-driven `System`
  (`system.rs`) and `Galaxy::stats` (`lib.rs`).

Modelling conventions:
* Machine integers (`usize`) become `Nat`; the quantities involved stay far
  below 2^64 in every statement, and the source performs no wrapping
  arithmetic (subtraction is guarded by an affordability check).
* Rust panics (`unwrap` on `None`, `panic!`, division by zero) are modelled
  by `Option`: `none` is a panic, `some` a normal return.
* The per-structure production/storage/cost curves of `config.rs`
  (`base * multiplier^(level-1)` with `f64` rounding) are abstracted as
  level-indexed tables inside `GalaxyConfig`; none of the verified
  properties depend on the shape of the curve, only on the values the
  tables return.
* Rust's `HashMap`/`HashSet` become association lists / duplicate-free
  lists; `Vec::sort_by_key` (a stable sort) becomes a stable insertion
  sort on the completion key.
* The `db` feature's SQL statements are modelled by the record of values
  bound into each row (`SystemRow`), since the adapter itself is out of
  scope; `save_system_with_tx` produces such a row and
  `load_systems_for_galaxy` consumes it.
-/

namespace GW

/-- Resource triple, from `Resources` in `lib.rs`. -/
structure Resources where
  metal : Nat
  crew : Nat
  water : Nat
deriving DecidableEq, Repr

/-- `impl Add for Resources` (component-wise). -/
def Resources.add (a b : Resources) : Resources :=
  ⟨a.metal + b.metal, a.crew + b.crew, a.water + b.water⟩

instance : Add Resources := ⟨Resources.add⟩

/-- `impl Sub for Resources` (component-wise, `usize` subtraction; only ever
called after an affordability check in the source). -/
def Resources.sub (a b : Resources) : Resources :=
  ⟨a.metal - b.metal, a.crew - b.crew, a.water - b.water⟩

instance : Sub Resources := ⟨Resources.sub⟩

/-- `impl PartialOrd for Resources` in `lib.rs`: `Greater`/`Less` only when
strict in all three components, `Equal` only when equal in all three,
otherwise no order. -/
def Resources.cmp? (a b : Resources) : Option Ordering :=
  if a.metal > b.metal ∧ a.crew > b.crew ∧ a.water > b.water then
    some .gt
  else if a.metal < b.metal ∧ a.crew < b.crew ∧ a.water < b.water then
    some .lt
  else if a.metal = b.metal ∧ a.crew = b.crew ∧ a.water = b.water then
    some .eq
  else
    none

/-- Rust `a >= b` via `PartialOrd`: `partial_cmp` is `Greater` or `Equal`. -/
def Resources.ge (a b : Resources) : Bool :=
  match Resources.cmp? a b with
  | some .gt => true
  | some .eq => true
  | _ => false

/-- Build cost: resources plus a tick duration (`Cost` in `lib.rs`). -/
structure Cost where
  resources : Resources
  ticks : Nat
deriving DecidableEq, Repr

/-- `StructureType` in `game_system.rs`. -/
inductive StructureType where
  | Colony
  | AsteroidMine
  | WaterHarvester
  | Hatchery
  | StorageDepot
deriving DecidableEq, Repr

/-- `EventCallback` in `game_system.rs` (the current tree only has builds). -/
inductive EventCallback where
  | Build
deriving DecidableEq, Repr

/-- `Event` in `game_system.rs`. The source field `structure` is renamed
`structRef` because `structure` is a Lean keyword. -/
structure Event where
  completion : Nat
  action : EventCallback
  structRef : Option StructureType
deriving DecidableEq, Repr

/-- A structure instance on a system (`Structure` in `game_system.rs`). -/
structure Structure where
  name : StructureType
  level : Nat
deriving DecidableEq, Repr

/-- `System` in `game_system.rs`. -/
structure System where
  current_tick : Nat
  events : List Event
  resources : Resources
  structures : List Structure
deriving DecidableEq, Repr

/-- `SystemConfig` in `config.rs`: the starting resources (the string-keyed
map lookups for "metal"/"water"/"crew" are folded into a `Resources` value)
and the structures with their starting levels (names already parsed, as
`System::new` does with `from_str(..).unwrap()`). -/
structure SystemConfig where
  resources : Resources
  structures : List (StructureType × Nat)

/-- `GalaxyConfig` in `config.rs`. The level-indexed `f64` curves of
`get_structure_production` / `get_structure_storage` /
`StructureConfig::get_cost` are abstracted as tables from structure type and
level to the produced value; every structure type is assumed configured (the
source `get_structure_config` unwraps the config-map lookup). -/
structure GalaxyConfig where
  system_count : Nat
  size_x : Nat
  size_y : Nat
  systems : SystemConfig
  production : StructureType → Nat → Resources
  storage : StructureType → Nat → Resources
  cost : StructureType → Nat → Cost

namespace System

/-- `System::new`: starting resources and structures from the config. -/
def new (tick : Nat) (system_config : SystemConfig) : System :=
  { current_tick := tick
    events := []
    resources := system_config.resources
    structures := system_config.structures.map fun p => ⟨p.1, p.2⟩ }

/-- `System::structure`: index of a structure by type. -/
def structurePos (s : System) (st : StructureType) : Option Nat :=
  s.structures.findIdx? fun b => b.name = st

/-- `System::structure_level`: level of a structure, `0` when absent. -/
def structure_level (s : System) (st : StructureType) : Nat :=
  match s.structures.find? (fun b => b.name = st) with
  | some b => b.level
  | none => 0

/-- Aggregate production over all structures (`System::get_production`). -/
def get_production (cfg : GalaxyConfig) (s : System) : Resources :=
  s.structures.foldl (fun acc b => acc + cfg.production b.name b.level) ⟨0, 0, 0⟩

/-- Aggregate storage over all structures (`System::get_storage`). -/
def get_storage (cfg : GalaxyConfig) (s : System) : Resources :=
  s.structures.foldl (fun acc b => acc + cfg.storage b.name b.level) ⟨0, 0, 0⟩

/-- Increment the level of the structure at index `i`
(`self.structures[index].level += 1`). -/
def bumpAt : List Structure → Nat → List Structure
  | [], _ => []
  | b :: bs, 0 => ⟨b.name, b.level + 1⟩ :: bs
  | b :: bs, n + 1 => b :: bumpAt bs n

/-- `System::event_callback`. Returns `none` on the two panic paths: a build
event whose structure is absent (`unwrap`) or carries no structure type
(`panic!`). -/
def event_callback (tick : Nat) (s : System) (e : Event) : Option System :=
  if e.completion > tick then
    some s
  else
    match e.action with
    | .Build =>
      match e.structRef with
      | some st =>
        match s.structurePos st with
        | some i => some { s with structures := bumpAt s.structures i }
        | none => none
      | none => none

/-- `System::event_to_process`: is the first pending event due? -/
def event_to_process (s : System) (tick : Nat) : Bool :=
  match s.events.head? with
  | some e => e.completion ≤ tick
  | none => false

/-- Stable insertion of an event into a completion-sorted list; equal keys
keep their existing order, matching Rust's stable `sort_by_key`. -/
def insertByCompletion (e : Event) : List Event → List Event
  | [] => [e]
  | x :: xs =>
    if e.completion < x.completion then e :: x :: xs
    else x :: insertByCompletion e xs

/-- Stable sort of events by completion tick (`Vec::sort_by_key`). -/
def sortByCompletion : List Event → List Event
  | [] => []
  | x :: xs => insertByCompletion x (sortByCompletion xs)

/-- `System::register_event`: push the event and re-sort by completion. -/
def register_event (s : System) (e : Event) : System :=
  { s with events := sortByCompletion (s.events ++ [e]) }

/-- One pass of the `process_events` loop body: drain the cloned list,
running the callback on due events and re-registering the rest. -/
def foldEvents (tick : Nat) : List Event → System → Option System
  | [], s => some s
  | e :: es, s =>
    if e.completion ≤ tick then
      (event_callback tick s e).bind (foldEvents tick es)
    else
      foldEvents tick es (register_event s e)

/-- The `while event_to_process` loop of `System::process_events`, with a
fuel parameter for termination; `processEvents` supplies enough fuel that
exhaustion is unreachable. -/
def processEventsFuel (tick : Nat) : Nat → System → Option System
  | 0, _ => none
  | fuel + 1, s =>
    if s.event_to_process tick then
      let evs := s.events
      match foldEvents tick evs { s with events := [] } with
      | some s' => processEventsFuel tick fuel s'
      | none => none
    else
      some s

/-- `System::process_events`. One loop iteration consumes every due event
and build callbacks enqueue nothing, so `events.length + 1` fuel always
suffices. -/
def process_events (tick : Nat) (s : System) : Option System :=
  processEventsFuel tick (s.events.length + 1) s

/-- Production of one resource component during an advance: with rate
`prod` per 3600 ticks the interval is `3600 / prod` and the whole cycles
elapsed are counted by integer division; the result is clamped to `cap`.
`none` models the Rust division-by-zero panic when `prod > 3600` makes the
interval zero. Zero-rate components are returned unchanged. -/
def produceRes (cur new prod cap res : Nat) : Option Nat :=
  if prod > 0 then
    let interval := 3600 / prod
    if interval = 0 then none
    else some (min (res + (new / interval - cur / interval)) cap)
  else
    some res

/-- `System::update_to_tick`: no-op when time does not advance; otherwise
process due events, then produce each resource independently by whole
cycles and clamp, then adopt the new tick. -/
def update_to_tick (cfg : GalaxyConfig) (new_tick : Nat) (s : System) :
    Option System :=
  if new_tick ≤ s.current_tick then
    some s
  else
    (process_events new_tick s).bind fun s1 =>
      let production := get_production cfg s1
      let storage := get_storage cfg s1
      (produceRes s1.current_tick new_tick production.metal storage.metal
          s1.resources.metal).bind fun m =>
        (produceRes s1.current_tick new_tick production.water storage.water
            s1.resources.water).bind fun w =>
          (produceRes s1.current_tick new_tick production.crew storage.crew
              s1.resources.crew).bind fun c =>
            some { s1 with
                    resources := ⟨m, c, w⟩
                    current_tick := new_tick }

/-- Score of one structure: `(1..=level).sum()`. -/
def levelScore (level : Nat) : Nat := (List.range (level + 1)).sum

/-- The pure part of `System::score` (after the tick update). -/
def scoreVal (s : System) : Nat :=
  (s.structures.map fun b => levelScore b.level).sum

/-- `System::build`: advance to `tick`, reject when a build is already in
flight or the structure is absent, check affordability with the
`Resources` partial order, then deduct the cost and register the
completion event. -/
def build (cfg : GalaxyConfig) (tick : Nat) (st : StructureType)
    (s : System) : Option (Except String Event × System) :=
  (update_to_tick cfg tick s).bind fun s1 =>
    if s1.events.any (fun e => e.structRef.isSome) then
      some (.error "Already building a structure", s1)
    else if (s1.structurePos st).isSome then
      let cost := cfg.cost st (s1.structure_level st + 1)
      if Resources.ge s1.resources cost.resources then
        let s2 := { s1 with resources := s1.resources - cost.resources }
        let event : Event := ⟨tick + cost.ticks, .Build, some st⟩
        some (.ok event, s2.register_event event)
      else
        some (.error "Not enough resources", s1)
    else
      some (.error "Structure not found", s1)

end System

/-- `Coords` in `lib.rs`. -/
structure Coords where
  x : Nat
  y : Nat
deriving DecidableEq, Repr

/-- `Galaxy` in `lib.rs`; the `HashMap<Coords, System>` is an association
list and the `HashSet<Coords>` of dirty systems a duplicate-free list. -/
structure Galaxy where
  config : GalaxyConfig
  systems : List (Coords × System)
  tick : Nat
  dirty_systems : List Coords
  needs_persist : Bool

/-- Association-list lookup (`HashMap::get`). -/
def lookupC (c : Coords) : List (Coords × System) → Option System
  | [] => none
  | (k, v) :: rest => if k = c then some v else lookupC c rest

/-- Association-list insert-or-replace (`HashMap::insert`). -/
def insertC (c : Coords) (v : System) : List (Coords × System) →
    List (Coords × System)
  | [] => [(c, v)]
  | (k, w) :: rest =>
    if k = c then (c, v) :: rest else (k, w) :: insertC c v rest

namespace Galaxy

/-- `Galaxy::mark_system_dirty`: record the coordinate and set
`needs_persist`. -/
def mark_system_dirty (c : Coords) (g : Galaxy) : Galaxy :=
  { g with
      dirty_systems :=
        if c ∈ g.dirty_systems then g.dirty_systems else c :: g.dirty_systems
      needs_persist := true }

/-- `Galaxy::update_tick`: reject ticks that move backwards, otherwise
adopt the new tick. -/
def update_tick (tick : Nat) (g : Galaxy) : Except String Galaxy :=
  if tick < g.tick then
    .error "Tick is out of order"
  else
    .ok { g with tick := tick }

end Galaxy

/-- `Details` return values of `System::get_details`: either the system
summary or a structure summary (`SystemInfo` / `StructureInfo` in
`lib.rs`). -/
structure SystemInfo where
  score : Nat
  resources : Resources
  production : Resources
  structures : List (StructureType × Nat)
  events : List Event
deriving DecidableEq, Repr

/-- `StructureInfo` in `lib.rs`. -/
structure StructureInfo where
  level : Nat
  production : Option Resources
  builds : Option (List (StructureType × Cost))
deriving DecidableEq, Repr

/-- `Details` in `lib.rs`. -/
inductive Details where
  | system (info : SystemInfo)
  | structureInfo (info : StructureInfo)
deriving DecidableEq, Repr

namespace System

/-- `System::get_details`: advance to `tick`, then report either the
structure view (with the buildable list on the Colony) or the system view;
`score` performs its own (now no-op) tick update. -/
def get_details (cfg : GalaxyConfig) (tick : Nat)
    (st? : Option StructureType) (s : System) :
    Option (Except String Details × System) :=
  (update_to_tick cfg tick s).bind fun s1 =>
    match st? with
    | some st =>
      let info : StructureInfo :=
        { level := s1.structure_level st
          production := some (cfg.production st (s1.structure_level st))
          builds :=
            if st = .Colony then
              some (s1.structures.map fun b =>
                (b.name, cfg.cost b.name (b.level + 1)))
            else
              none }
      some (.ok (.structureInfo info), s1)
    | none =>
      (update_to_tick cfg tick s1).bind fun s2 =>
        let info : SystemInfo :=
          { score := scoreVal s2
            resources := s2.resources
            production := get_production cfg s2
            structures := s2.structures.map fun b => (b.name, b.level)
            events := s2.events }
        some (.ok (.system info), s2)

end System

namespace Galaxy

/-- `Galaxy::get_details`: tick gate, then delegate to the addressed
system (the `unwrap` of the coordinate lookup is a panic, i.e. `none`) and
mark the coordinate dirty when the galaxy tick advanced. -/
def get_details (tick : Nat) (coords : Coords)
    (st? : Option StructureType) (g : Galaxy) :
    Option (Except String Details × Galaxy) :=
  match update_tick tick g with
  | .error e => some (.error e, g)
  | .ok g1 =>
    match lookupC coords g1.systems with
    | none => none
    | some sys =>
      match sys.get_details g1.config tick st? with
      | none => none
      | some (r, sys') =>
        let g2 := { g1 with systems := insertC coords sys' g1.systems }
        let g3 := if g2.tick ≠ g.tick then mark_system_dirty coords g2 else g2
        some (r, g3)

/-- `Galaxy::build`: tick gate, delegate to the addressed system
(coordinate lookup `unwrap` is a panic), mark dirty on success. -/
def build (tick : Nat) (coords : Coords) (st : StructureType) (g : Galaxy) :
    Option (Except String Event × Galaxy) :=
  match update_tick tick g with
  | .error e => some (.error e, g)
  | .ok g1 =>
    match lookupC coords g1.systems with
    | none => none
    | some sys =>
      match sys.build g1.config tick st with
      | none => none
      | some (r, sys') =>
        let g2 := { g1 with systems := insertC coords sys' g1.systems }
        let g3 :=
          if r.toBool then mark_system_dirty coords g2 else g2
        some (r, g3)

/-- The per-system body of the `Galaxy::stats` loop: `score(tick)` and
`metal(tick)` each advance the system to `tick` (the second advance is a
no-op) and the printed figures are collected. -/
def statsEntries (cfg : GalaxyConfig) (tick : Nat) :
    List (Coords × System) →
    Option (List (Coords × Nat × Nat) × List (Coords × System))
  | [] => some ([], [])
  | (c, sys) :: rest =>
    (sys.update_to_tick cfg tick).bind fun s1 =>
      (s1.update_to_tick cfg tick).bind fun s2 =>
        (statsEntries cfg tick rest).bind fun p =>
          some ((c, System.scoreVal s1, s2.resources.metal) :: p.1,
            (c, s2) :: p.2)

/-- Mark every system dirty (the post-advance branch of `Galaxy::stats`). -/
def markAllCoordsDirty (g : Galaxy) : Galaxy :=
  (g.systems.map Prod.fst).foldl (fun acc c => mark_system_dirty c acc) g

/-- `Galaxy::stats`: tick gate, then one line per system
("System at {coords} has score {score} and metal {metal}") under a header
reporting `config.system_count`; all systems are marked dirty when the
galaxy tick advanced. The formatted string is abstracted as the pair of
the header count and the list of printed figures. -/
def stats (tick : Nat) (g : Galaxy) :
    Option (Except String (Nat × List (Coords × Nat × Nat)) × Galaxy) :=
  match update_tick tick g with
  | .error e => some (.error e, g)
  | .ok g1 =>
    match statsEntries g1.config tick g1.systems with
    | none => none
    | some (es, systems') =>
      let g2 := { g1 with systems := systems' }
      let g3 := if g2.tick ≠ g.tick then markAllCoordsDirty g2 else g2
      some (.ok (g1.config.system_count, es), g3)

/-- `Galaxy::new`: draw `system_count` random coordinates (the RNG is
modelled as an arbitrary coordinate sequence `draws`); a draw that hits an
occupied coordinate is skipped, not retried. -/
def new (cfg : GalaxyConfig) (draws : Nat → Coords) (initial_tick : Nat) :
    Galaxy :=
  let systems :=
    (List.range cfg.system_count).foldl
      (fun acc i =>
        let c := draws i
        if (lookupC c acc).isSome then acc
        else insertC c (System.new initial_tick cfg.systems) acc)
      []
  { config := cfg
    systems := systems
    tick := initial_tick
    dirty_systems := []
    needs_persist := false }

end Galaxy

/-- A public call into the galaxy, carrying its externally supplied tick. -/
inductive GCall where
  | getDetails (tick : Nat) (coords : Coords) (st? : Option StructureType)
  | buildCall (tick : Nat) (coords : Coords) (st : StructureType)
  | statsCall (tick : Nat)

/-- The tick a call presents to the gate. -/
def GCall.tick : GCall → Nat
  | .getDetails t _ _ => t
  | .buildCall t _ _ => t
  | .statsCall t => t

/-- Result of one public call. -/
inductive CallResult where
  | details (r : Except String Details)
  | event (r : Except String Event)
  | statsOut (r : Except String (Nat × List (Coords × Nat × Nat)))

/-- Whether a result is the `OutOfOrderTick` rejection. -/
def CallResult.isOutOfOrder : CallResult → Bool
  | .details (.error e) => e = "Tick is out of order"
  | .event (.error e) => e = "Tick is out of order"
  | .statsOut (.error e) => e = "Tick is out of order"
  | _ => false

/-- Dispatch one public call. -/
def stepCall (g : Galaxy) : GCall → Option (CallResult × Galaxy)
  | .getDetails t c st? =>
    (g.get_details t c st?).map fun (r, g') => (.details r, g')
  | .buildCall t c st =>
    (g.build t c st).map fun (r, g') => (.event r, g')
  | .statsCall t =>
    (g.stats t).map fun (r, g') => (.statsOut r, g')

/-- Run a sequence of public calls, threading the galaxy state; `none` as
soon as any call panics. -/
def runCalls (g : Galaxy) : List GCall → Option (List CallResult × Galaxy)
  | [] => some ([], g)
  | c :: cs =>
    (stepCall g c).bind fun (r, g') =>
      (runCalls g' cs).bind fun (rs, g'') => some (r :: rs, g'')

/-- `Display`/`Debug` of `StructureType` lowercased, as bound into the
`structures`/`events` insert statements of `db/galaxies.rs`
(`to_string().to_lowercase()`). -/
def StructureType.toDbStr : StructureType → String
  | .Colony => "colony"
  | .AsteroidMine => "asteroidmine"
  | .WaterHarvester => "waterharvester"
  | .Hatchery => "hatchery"
  | .StorageDepot => "storagedepot"

/-- ASCII lowercasing of one character (the inputs fed to
`StructureType::from_str` are ASCII, where Rust's `to_lowercase` agrees
with ASCII lowercasing). -/
def lowerChar (c : Char) : Char :=
  if 'A' ≤ c ∧ c ≤ 'Z' then Char.ofNat (c.toNat + 32) else c

/-- ASCII lowercasing of a string. -/
def lowerStr (s : String) : String := ⟨s.data.map lowerChar⟩

/-- `StructureType::from_str`: lowercase the input, then match. -/
def StructureType.fromStr (s : String) : Option StructureType :=
  match lowerStr s with
  | "colony" => some .Colony
  | "asteroidmine" => some .AsteroidMine
  | "waterharvester" => some .WaterHarvester
  | "hatchery" => some .Hatchery
  | "storagedepot" => some .StorageDepot
  | _ => none

/-- The values bound into one `events` table row by `save_galaxy_state`. -/
structure EventRow where
  completion_tick : Nat
  action_type : String
  structure_type : Option String
deriving DecidableEq, Repr

/-- The values bound into one `systems` table row (plus its dependent
`structures` and `events` rows) by `save_system_with_tx` and the
surrounding `save_galaxy_state` loop. -/
structure SystemRow where
  x : Nat
  y : Nat
  metal : Nat
  crew : Nat
  water : Nat
  current_tick : Nat
  structures : List (String × Nat)
  events : List EventRow
deriving DecidableEq, Repr

/-- `save_system_with_tx` together with the structure/event saving loop of
`save_galaxy_state`: the SQL write is abstracted as the record of bound
values. `format!("{:?}", event.action)` renders the only action as
"Build". -/
def saveSystemRow (coords : Coords) (s : System) : SystemRow :=
  { x := coords.x
    y := coords.y
    metal := s.resources.metal
    crew := s.resources.crew
    water := s.resources.water
    current_tick := s.current_tick
    structures := s.structures.map fun b => (b.name.toDbStr, b.level)
    events := s.events.map fun e =>
      { completion_tick := e.completion
        action_type := "Build"
        structure_type := e.structRef.map StructureType.toDbStr } }

/-- One iteration of `load_systems_for_galaxy`: rebuild a system from its
row with `System::from_database` (which keeps the row's own
`current_tick`); the galaxy tick parameter is received but unused, exactly
as `_galaxy_current_tick` is in the source. -/
def loadSystemFromRow (galaxy_current_tick : Nat) (row : SystemRow) :
    Coords × System :=
  let _ := galaxy_current_tick
  let structures : List Structure :=
    row.structures.filterMap fun p =>
      (StructureType.fromStr p.1).map fun st => ⟨st, p.2⟩
  let events : List Event :=
    row.events.filterMap fun r =>
      match r.action_type with
      | "Build" =>
        some { completion := r.completion_tick
               action := .Build
               structRef := r.structure_type.bind StructureType.fromStr }
      | _ => none
  (⟨row.x, row.y⟩,
    { current_tick := row.current_tick
      events := events
      resources := ⟨row.metal, row.crew, row.water⟩
      structures := structures })

/-- The system-selection logic of `save_galaxy_state`: when
`needs_persist` is set, save the dirty systems, or every system when no
specific one is dirty; otherwise save none. -/
def saveGalaxyRows (g : Galaxy) : List SystemRow :=
  let coordsToSave :=
    if g.needs_persist then
      if g.dirty_systems.isEmpty then g.systems.map Prod.fst
      else g.dirty_systems
    else
      []
  coordsToSave.filterMap fun c =>
    (lookupC c g.systems).map fun s => saveSystemRow c s

/-- `load_systems_for_galaxy`: rebuild every saved system. -/
def loadSystemsFromRows (galaxy_current_tick : Nat) (rows : List SystemRow) :
    List (Coords × System) :=
  rows.map (loadSystemFromRow galaxy_current_tick)

end GW

namespace GWLegacy

/-!
The older tree (`src/`): the event-driven `System` of `system.rs` — where
resource production itself is carried by `Metal`/`Water`/`Crew` events —
and `Galaxy::stats` of `lib.rs`. The mutual recursion between
`process_events`, `event_callback`, `get_production`, `get_storage` and
`update_events` is made total with a fuel parameter; fuel exhaustion and
Rust panics both map to `none`, and every verified statement is
conditional on a `some` result.
-/

open GW (Resources Cost StructureType Structure Coords)

/-- `EventCallback` in the legacy `system.rs`. -/
inductive EventCallback where
  | Metal
  | Water
  | Crew
  | Build
deriving DecidableEq, Repr

/-- `Event` in the legacy `system.rs` (field `structure` renamed
`structRef`; Lean keyword). -/
structure Event where
  completion : Nat
  action : EventCallback
  structRef : Option StructureType
deriving DecidableEq, Repr

/-- Legacy `System`: no own clock; time lives in the pending events. -/
structure System where
  events : List Event
  resources : Resources
  structures : List Structure
deriving DecidableEq, Repr

/-- Legacy `GalaxyConfig`, abstracted exactly as the current tree's. -/
structure GalaxyConfig where
  system_count : Nat
  production : StructureType → Nat → Resources
  storage : StructureType → Nat → Resources
  cost : StructureType → Nat → Cost

namespace System

/-- `System::structure` (index by type). -/
def structurePos (s : System) (st : StructureType) : Option Nat :=
  s.structures.findIdx? fun b => b.name = st

/-- Stable insertion by completion tick (`Vec::sort_by_key` is stable). -/
def insertByCompletion (e : Event) : List Event → List Event
  | [] => [e]
  | x :: xs =>
    if e.completion < x.completion then e :: x :: xs
    else x :: insertByCompletion e xs

/-- Stable sort by completion tick. -/
def sortByCompletion : List Event → List Event
  | [] => []
  | x :: xs => insertByCompletion x (sortByCompletion xs)

/-- `System::register_event`. -/
def register_event (s : System) (e : Event) : System :=
  { s with events := sortByCompletion (s.events ++ [e]) }

/-- `System::event_to_process`. -/
def event_to_process (s : System) (tick : Nat) : Bool :=
  match s.events.head? with
  | some e => e.completion ≤ tick
  | none => false

/-- The sum of per-structure production tables (the pure tail of the
legacy `get_production`, after its `process_events` call). -/
def productionOf (cfg : GalaxyConfig) (structures : List Structure) :
    Resources :=
  structures.foldl (fun acc b => acc + cfg.production b.name b.level) ⟨0, 0, 0⟩

/-- The sum of per-structure storage tables (pure tail of `get_storage`). -/
def storageOf (cfg : GalaxyConfig) (structures : List Structure) :
    Resources :=
  structures.foldl (fun acc b => acc + cfg.storage b.name b.level) ⟨0, 0, 0⟩

/-- The event-rescheduling pass of the legacy `update_events`, given the
already-computed production: each resource event's ETA is lowered to
`tick + 3600/production` when that is sooner (`none` on the
division-by-zero panic when production for that resource is zero). -/
def updateEventsPass (tick : Nat) (production : Resources) :
    List Event → System → Option System
  | [], s => some s
  | e :: es, s =>
    match e.action with
    | .Metal =>
      if production.metal = 0 then none
      else
        let newCompletion := tick + 3600 / production.metal
        let e' := if newCompletion < e.completion then
            { completion := newCompletion, action := EventCallback.Metal,
              structRef := e.structRef }
          else e
        updateEventsPass tick production es (s.register_event e')
    | .Water =>
      if production.water = 0 then none
      else
        let newCompletion := tick + 3600 / production.water
        let e' := if newCompletion < e.completion then
            { completion := newCompletion, action := EventCallback.Water,
              structRef := e.structRef }
          else e
        updateEventsPass tick production es (s.register_event e')
    | .Crew =>
      if production.crew = 0 then none
      else
        let newCompletion := tick + 3600 / production.crew
        let e' := if newCompletion < e.completion then
            { completion := newCompletion, action := EventCallback.Crew,
              structRef := e.structRef }
          else e
        updateEventsPass tick production es (s.register_event e')
    | .Build => updateEventsPass tick production es (s.register_event e)

/-- The trailing reseed of `update_events`: when a resource has positive
production but no pending event of its kind, register one. -/
def reseedEvents (tick : Nat) (production : Resources) (s : System) : System :=
  let s :=
    if production.metal > 0 ∧
        ¬ s.events.any (fun e => e.action = EventCallback.Metal) then
      s.register_event
        ⟨tick + 3600 / production.metal, EventCallback.Metal, none⟩
    else s
  let s :=
    if production.water > 0 ∧
        ¬ s.events.any (fun e => e.action = EventCallback.Water) then
      s.register_event
        ⟨tick + 3600 / production.water, EventCallback.Water, none⟩
    else s
  if production.crew > 0 ∧
      ¬ s.events.any (fun e => e.action = EventCallback.Crew) then
    s.register_event
      ⟨tick + 3600 / production.crew, EventCallback.Crew, none⟩
  else s

mutual

/-- Legacy `System::process_events` (`while event_to_process` loop). -/
def process_events (cfg : GalaxyConfig) (tick : Nat) :
    Nat → System → Option System
  | 0, _ => none
  | fuel + 1, s =>
    if s.event_to_process tick then
      match foldEvents cfg tick fuel s.events { s with events := [] } with
      | some s' => process_events cfg tick fuel s'
      | none => none
    else
      some s

/-- One pass over the cloned event list in `process_events`. -/
def foldEvents (cfg : GalaxyConfig) (tick : Nat) :
    Nat → List Event → System → Option System
  | 0, _, _ => none
  | _ + 1, [], s => some s
  | fuel + 1, e :: es, s =>
    if e.completion ≤ tick then
      match event_callback cfg tick fuel s e with
      | some s' => foldEvents cfg tick fuel es s'
      | none => none
    else
      foldEvents cfg tick fuel es (s.register_event e)

/-- Legacy `System::event_callback`: a `Metal`/`Water`/`Crew` event adds
one unit, clamps to storage and schedules the next unit; a `Build` event
increments the structure level (panicking when the structure is absent)
and reschedules the pending events. -/
def event_callback (cfg : GalaxyConfig) (tick : Nat) :
    Nat → System → Event → Option System
  | 0, _, _ => none
  | fuel + 1, s, e =>
    if e.completion > tick then
      some s
    else
      match e.action with
      | .Metal =>
        let s := { s with resources :=
          { s.resources with metal := s.resources.metal + 1 } }
        match get_storage cfg tick fuel s with
        | none => none
        | some (storage, s) =>
          let s := if s.resources.metal > storage.metal then
              { s with resources :=
                { s.resources with metal := storage.metal } }
            else s
          match get_production cfg tick fuel s with
          | none => none
          | some (production, s) =>
            if production.metal > 0 then
              some (s.register_event
                ⟨e.completion + 3600 / production.metal,
                  EventCallback.Metal, none⟩)
            else
              some s
      | .Water =>
        let s := { s with resources :=
          { s.resources with water := s.resources.water + 1 } }
        match get_storage cfg tick fuel s with
        | none => none
        | some (storage, s) =>
          let s := if s.resources.water > storage.water then
              { s with resources :=
                { s.resources with water := storage.water } }
            else s
          match get_production cfg tick fuel s with
          | none => none
          | some (production, s) =>
            if production.water > 0 then
              some (s.register_event
                ⟨e.completion + 3600 / production.water,
                  EventCallback.Water, none⟩)
            else
              some s
      | .Crew =>
        let s := { s with resources :=
          { s.resources with crew := s.resources.crew + 1 } }
        match get_storage cfg tick fuel s with
        | none => none
        | some (storage, s) =>
          let s := if s.resources.crew > storage.crew then
              { s with resources :=
                { s.resources with crew := storage.crew } }
            else s
          match get_production cfg tick fuel s with
          | none => none
          | some (production, s) =>
            if production.crew > 0 then
              some (s.register_event
                ⟨e.completion + 3600 / production.crew,
                  EventCallback.Crew, none⟩)
            else
              some s
      | .Build =>
        match e.structRef with
        | some st =>
          match s.structurePos st with
          | some i =>
            let s := { s with structures := GW.System.bumpAt s.structures i }
            update_events cfg tick fuel s
          | none => none
        | none => none

/-- Legacy `System::get_production`: process events first, then sum. -/
def get_production (cfg : GalaxyConfig) (tick : Nat) :
    Nat → System → Option (Resources × System)
  | 0, _ => none
  | fuel + 1, s =>
    match process_events cfg tick fuel s with
    | some s' => some (productionOf cfg s'.structures, s')
    | none => none

/-- Legacy `System::get_storage`: process events first, then sum. -/
def get_storage (cfg : GalaxyConfig) (tick : Nat) :
    Nat → System → Option (Resources × System)
  | 0, _ => none
  | fuel + 1, s =>
    match process_events cfg tick fuel s with
    | some s' => some (storageOf cfg s'.structures, s')
    | none => none

/-- Legacy `System::update_events`: recompute production, rebuild all ETAs
and reseed missing resource events. -/
def update_events (cfg : GalaxyConfig) (tick : Nat) :
    Nat → System → Option System
  | 0, _ => none
  | fuel + 1, s =>
    match get_production cfg tick fuel s with
    | none => none
    | some (production, s') =>
      match updateEventsPass tick production s'.events
          { s' with events := [] } with
      | none => none
      | some s'' => some (reseedEvents tick production s'')

end

/-- Legacy `System::resources` (the accessor method; named `resourcesAt`
here because the structure already has a `resources` field): process
events, then read the field. -/
def resourcesAt (cfg : GalaxyConfig) (tick fuel : Nat) (s : System) :
    Option (Resources × System) :=
  match process_events cfg tick fuel s with
  | some s' => some (s'.resources, s')
  | none => none

/-- Legacy `System::metal`: `self.resources(tick, cfg).water` — the body
projects the water component. -/
def metalAt (cfg : GalaxyConfig) (tick fuel : Nat) (s : System) :
    Option (Nat × System) :=
  match resourcesAt cfg tick fuel s with
  | some (r, s') => some (r.water, s')
  | none => none

/-- Legacy `System::score`: process events, then sum the triangular
numbers of the structure levels. -/
def scoreAt (cfg : GalaxyConfig) (tick fuel : Nat) (s : System) :
    Option (Nat × System) :=
  match process_events cfg tick fuel s with
  | some s' =>
    some ((s'.structures.map fun b => GW.System.levelScore b.level).sum, s')
  | none => none

end System

/-- Legacy `Galaxy` (no persistence fields). -/
structure Galaxy where
  config : GalaxyConfig
  systems : List (Coords × System)
  tick : Nat

namespace Galaxy

/-- Legacy `Galaxy::update_tick` (same gate as the current tree). -/
def update_tick (tick : Nat) (g : Galaxy) : Except String Galaxy :=
  if tick < g.tick then
    .error "Tick is out of order"
  else
    .ok { g with tick := tick }

/-- The per-system body of the legacy `Galaxy::stats` loop: the printed
pair is `(score(tick), metal(tick))`. -/
def statsEntries (cfg : GalaxyConfig) (tick fuel : Nat) :
    List (Coords × System) →
    Option (List (Coords × Nat × Nat) × List (Coords × System))
  | [] => some ([], [])
  | (c, sys) :: rest =>
    (sys.scoreAt cfg tick fuel).bind fun p1 =>
      (p1.2.metalAt cfg tick fuel).bind fun p2 =>
        (statsEntries cfg tick fuel rest).bind fun p3 =>
          some ((c, p1.1, p2.1) :: p3.1, (c, p2.2) :: p3.2)

/-- Legacy `Galaxy::stats`: tick gate, then the
"System count: {config.system_count}" header and one
"System at {coords} has score {score} and metal {metal}" line per system,
abstracted as the header figure and the list of printed figures. -/
def stats (tick fuel : Nat) (g : Galaxy) :
    Option (Except String (Nat × List (Coords × Nat × Nat)) × Galaxy) :=
  match update_tick tick g with
  | .error e => some (.error e, g)
  | .ok g1 =>
    match statsEntries g1.config tick fuel g1.systems with
    | none => none
    | some (es, systems') =>
      some (.ok (g1.config.system_count, es), { g1 with systems := systems' })

end Galaxy

end GWLegacy

/-! ## Concrete fixtures used in counterexamples and witnesses -/

namespace GW

/-- A config whose production/storage tables are zero and whose cost table
charges exactly `⟨5, 3, 4⟩` and 100 ticks at every level. -/
def cfgExactCost : GalaxyConfig :=
  { system_count := 1
    size_x := 0
    size_y := 0
    systems := ⟨⟨0, 0, 0⟩, []⟩
    production := fun _ _ => ⟨0, 0, 0⟩
    storage := fun _ _ => ⟨0, 0, 0⟩
    cost := fun _ _ => ⟨⟨5, 3, 4⟩, 100⟩ }

/-- A system holding exactly the resources the next Colony level costs. -/
def sysExact : System :=
  { current_tick := 0
    events := []
    resources := ⟨5, 3, 4⟩
    structures := [⟨.Colony, 1⟩] }

/-- An all-zero config (no production, no storage, free costs). -/
def cfgZero : GalaxyConfig :=
  { system_count := 0
    size_x := 0
    size_y := 0
    systems := ⟨⟨0, 0, 0⟩, []⟩
    production := fun _ _ => ⟨0, 0, 0⟩
    storage := fun _ _ => ⟨0, 0, 0⟩
    cost := fun _ _ => ⟨⟨0, 0, 0⟩, 0⟩ }

/-- A system whose metal holdings (5) already exceed its storage cap (0). -/
def sysOverfull : System :=
  { current_tick := 0
    events := []
    resources := ⟨5, 0, 0⟩
    structures := [] }

/-- An empty galaxy over the zero config, at tick 0. -/
def galaxyEmpty : Galaxy :=
  { config := cfgZero
    systems := []
    tick := 0
    dirty_systems := []
    needs_persist := false }

/-- A galaxy at tick 1000 with two event-free systems whose own clocks read
500 and 800 (the reload-fidelity scenario of the spec). -/
def galaxyLagged : Galaxy :=
  { config := cfgZero
    systems :=
      [(⟨10, 20⟩, ⟨500, [], ⟨100, 50, 75⟩, []⟩),
       (⟨30, 40⟩, ⟨800, [], ⟨200, 100, 150⟩, []⟩)]
    tick := 1000
    dirty_systems := []
    needs_persist := true }

/-- A two-system config whose draws always land on the same coordinate. -/
def cfgTwo : GalaxyConfig :=
  { system_count := 2
    size_x := 3
    size_y := 3
    systems := ⟨⟨0, 0, 0⟩, []⟩
    production := fun _ _ => ⟨0, 0, 0⟩
    storage := fun _ _ => ⟨0, 0, 0⟩
    cost := fun _ _ => ⟨⟨0, 0, 0⟩, 0⟩ }

/-- The colliding draw sequence: every draw is `(0, 0)`. -/
def drawsCollide : Nat → Coords := fun _ => ⟨0, 0⟩

/-- A system one water short of the exact-cost resources. -/
def sysPoor : System :=
  { current_tick := 0
    events := []
    resources := ⟨5, 3, 3⟩
    structures := [⟨.Colony, 1⟩] }

/-- A config producing 2 metal, 1 crew, 3 water per hour per structure,
with storage 200/20/200. -/
def cfgProd : GalaxyConfig :=
  { system_count := 1
    size_x := 0
    size_y := 0
    systems := ⟨⟨10, 3, 5⟩, [(.Colony, 1)]⟩
    production := fun _ _ => ⟨2, 1, 3⟩
    storage := fun _ _ => ⟨200, 20, 200⟩
    cost := fun _ _ => ⟨⟨5, 3, 4⟩, 1800⟩ }

/-- The test scenario's starting system: metal 10, crew 3, water 5. -/
def sysProd : System :=
  { current_tick := 0
    events := []
    resources := ⟨10, 3, 5⟩
    structures := [⟨.Colony, 1⟩] }

/-- `sysProd` advanced two hours: 4 metal, 2 crew, 6 water gained. -/
def sysProdAfter : System :=
  { current_tick := 7200
    events := []
    resources := ⟨14, 5, 11⟩
    structures := [⟨.Colony, 1⟩] }

/-- Number of pending events that reference a structure build (the same
predicate as the `AlreadyBuilding` check in `System::build`). -/
def buildEvCount (s : System) : Nat :=
  s.events.countP fun e => e.structRef.isSome

/-- Advance a system one tick at a time, `n` times (the stepwise side of
the advance-decomposition property). -/
def iterTicks (cfg : GalaxyConfig) : Nat → System → Option System
  | 0, s => some s
  | n + 1, s =>
    (System.update_to_tick cfg (s.current_tick + 1) s).bind (iterTicks cfg n)

/-- Units of one resource gained between ticks `a` and `b` at rate `prod`
per 3600 ticks: whole production cycles, counted by integer division. -/
def cyclesGained (prod a b : Nat) : Nat :=
  b / (3600 / prod) - a / (3600 / prod)

end GW

namespace GWLegacy

/-- A legacy config with all-zero tables. -/
def cfgL9 : GalaxyConfig :=
  { system_count := 1
    production := fun _ _ => ⟨0, 0, 0⟩
    storage := fun _ _ => ⟨0, 0, 0⟩
    cost := fun _ _ => ⟨⟨0, 0, 0⟩, 0⟩ }

/-- A legacy system with metal 10, crew 3, water 5 and no pending events. -/
def sysL9 : System :=
  { events := []
    resources := ⟨10, 3, 5⟩
    structures := [] }

end GWLegacy

/-! ## Shared helper lemmas -/

namespace GW

theorem filterMap_id_of {α : Type} (g : α → Option α) :
    ∀ l : List α, (∀ a ∈ l, g a = some a) → l.filterMap g = l := by
  intro l h
  induction l with
  | nil => rfl
  | cons a l ih =>
    rw [List.filterMap_cons, h a (List.mem_cons_self a l)]
    rw [ih fun b hb => h b (List.mem_cons_of_mem a hb)]

theorem fromStr_toDbStr (st : StructureType) :
    StructureType.fromStr st.toDbStr = some st := by
  cases st <;> rfl

/-- One saved system row reloads to exactly the original coordinate and
system; in particular the system's own `current_tick` is restored and the
galaxy tick argument is ignored. -/
theorem loadSystemFromRow_saveSystemRow (gt : Nat) (c : Coords) (s : System) :
    loadSystemFromRow gt (saveSystemRow c s) = (c, s) := by
  obtain ⟨ct, evs, ⟨m, cr, w⟩, strs⟩ := s
  obtain ⟨x, y⟩ := c
  unfold loadSystemFromRow saveSystemRow
  simp only [List.filterMap_map]
  rw [filterMap_id_of _ strs ?_, filterMap_id_of _ evs ?_]
  · intro e _
    obtain ⟨comp, act, stRef⟩ := e
    cases act
    cases stRef with
    | none => rfl
    | some st => simp [Function.comp, fromStr_toDbStr]
  · intro b _
    obtain ⟨nm, lv⟩ := b
    simp [Function.comp, fromStr_toDbStr]

theorem lookupC_head (c : Coords) (v : System) (l : List (Coords × System)) :
    lookupC c ((c, v) :: l) = some v := by
  simp [lookupC]

theorem lookupC_of_ne (c k : Coords) (v : System)
    (l : List (Coords × System)) (h : k ≠ c) :
    lookupC c ((k, v) :: l) = lookupC c l := by
  simp [lookupC, h]

theorem saveLoad_aux (gt : Nat) :
    ∀ l : List (Coords × System), (l.map Prod.fst).Nodup →
      ((l.map Prod.fst).filterMap fun c =>
        (lookupC c l).map fun s => saveSystemRow c s).map
          (loadSystemFromRow gt) = l := by
  intro l
  induction l with
  | nil => intro _; rfl
  | cons p rest ih =>
    intro hnd
    obtain ⟨k, v⟩ := p
    simp only [List.map_cons, List.nodup_cons] at hnd
    obtain ⟨hk, hrest⟩ := hnd
    simp only [List.map_cons, List.filterMap_cons, lookupC_head,
      Option.map_some']
    rw [List.filterMap_congr (g := fun c =>
      (lookupC c rest).map fun s => saveSystemRow c s) ?_]
    · simp only [List.map_cons, loadSystemFromRow_saveSystemRow]
      rw [ih hrest]
    · intro c hc
      have hne : k ≠ c := by
        rintro rfl; exact hk hc
      rw [lookupC_of_ne _ _ _ _ hne]

end GW

/-! ## Claims -/

/-- Claim C7: reload fidelity. Part 1: a saved system row reloads to the
identical system — its individual `current_tick` included — for every value
of the galaxy tick passed to the loader. Part 2: saving a whole galaxy on
the save-everything path (`needs_persist` with no specific dirty system)
and reloading reproduces the system table exactly; individual ticks are
never collapsed to the galaxy tick. -/
theorem claim_C7 :
    (∀ (gt : Nat) (c : GW.Coords) (s : GW.System),
      GW.loadSystemFromRow gt (GW.saveSystemRow c s) = (c, s)) ∧
    (∀ (g : GW.Galaxy) (gt : Nat),
      g.needs_persist = true → g.dirty_systems = [] →
      (g.systems.map Prod.fst).Nodup →
      GW.loadSystemsFromRows gt (GW.saveGalaxyRows g) = g.systems) := by
  constructor
  · exact GW.loadSystemFromRow_saveSystemRow
  · intro g gt hp hd hnd
    unfold GW.loadSystemsFromRows GW.saveGalaxyRows
    rw [hp, hd]
    simpa using GW.saveLoad_aux gt g.systems hnd

/-- Claim C7 witness: the spec's concrete scenario — galaxy tick 1000,
system clocks 500 and 800 — reloads without collapsing the clocks. -/
theorem claim_C7_witness :
    GW.loadSystemsFromRows 1000 (GW.saveGalaxyRows GW.galaxyLagged) =
      GW.galaxyLagged.systems :=
  claim_C7.2 GW.galaxyLagged 1000 rfl rfl (by decide)

/-- Claim C9: in the legacy tree, `System::metal` projects the water
component. Part 1: whenever the legacy `resources` accessor returns
`(r, s')`, `metal` returns `r.water` (not `r.metal`). Part 2: a concrete
system with metal 10 and water 5 reports metal 5. Part 3: every figure the
legacy `Galaxy::stats` prints under "metal" equals the water amount of the
corresponding stored system. -/
theorem claim_C9 :
    (∀ (cfg : GWLegacy.GalaxyConfig) (tick fuel : Nat)
        (s : GWLegacy.System) (r : GW.Resources) (s' : GWLegacy.System),
      GWLegacy.System.resourcesAt cfg tick fuel s = some (r, s') →
      GWLegacy.System.metalAt cfg tick fuel s = some (r.water, s')) ∧
    (GWLegacy.System.metalAt GWLegacy.cfgL9 0 1 GWLegacy.sysL9 =
        some (5, GWLegacy.sysL9) ∧
      GWLegacy.sysL9.resources.metal = 10 ∧
      GWLegacy.sysL9.resources.water = 5) ∧
    (∀ (cfg : GWLegacy.GalaxyConfig) (tick fuel : Nat)
        (l : List (GW.Coords × GWLegacy.System))
        (es : List (GW.Coords × Nat × Nat))
        (ss : List (GW.Coords × GWLegacy.System)),
      GWLegacy.Galaxy.statsEntries cfg tick fuel l = some (es, ss) →
      List.Forall₂
        (fun (e : GW.Coords × Nat × Nat) (p : GW.Coords × GWLegacy.System) =>
          e.2.2 = p.2.resources.water) es ss) := by
  refine ⟨?_, ⟨rfl, rfl, rfl⟩, ?_⟩
  · intro cfg tick fuel s r s' h
    unfold GWLegacy.System.metalAt
    rw [h]
  · intro cfg tick fuel l
    induction l with
    | nil =>
      intro es ss h
      simp only [GWLegacy.Galaxy.statsEntries, Option.some.injEq,
        Prod.mk.injEq] at h
      obtain ⟨rfl, rfl⟩ := h
      exact List.Forall₂.nil
    | cons p rest ih =>
      intro es ss h
      obtain ⟨c, sys⟩ := p
      simp only [GWLegacy.Galaxy.statsEntries, Option.bind_eq_some,
        Option.some.injEq, Prod.mk.injEq] at h
      obtain ⟨⟨sc, s1⟩, hsc, ⟨m, s2⟩, hm, ⟨es', ss'⟩, hrest, ⟨h1, h2⟩⟩ := h
      subst h1; subst h2
      refine List.Forall₂.cons ?_ (ih es' ss' hrest)
      have hm2 : m = s2.resources.water := by
        unfold GWLegacy.System.metalAt GWLegacy.System.resourcesAt at hm
        cases hpe : GWLegacy.System.process_events cfg tick fuel s1 with
        | none => rw [hpe] at hm; exact absurd hm (by simp)
        | some sx =>
          rw [hpe] at hm
          simp only [Option.some.injEq, Prod.mk.injEq] at hm
          obtain ⟨hma, hmb⟩ := hm
          subst hmb; exact hma.symm
      simpa using hm2

/-- Claim C9 witness: the projection theorem applied to the concrete
legacy system (metal 10, water 5, no events). -/
theorem claim_C9_witness :
    GWLegacy.System.metalAt GWLegacy.cfgL9 0 1 GWLegacy.sysL9 =
      some ((⟨10, 3, 5⟩ : GW.Resources).water, GWLegacy.sysL9) :=
  claim_C9.1 GWLegacy.cfgL9 0 1 GWLegacy.sysL9 ⟨10, 3, 5⟩ GWLegacy.sysL9 rfl

namespace GW

theorem insertC_length (c : Coords) (v : System) :
    ∀ l : List (Coords × System), (insertC c v l).length ≤ l.length + 1 := by
  intro l
  induction l with
  | nil => simp [insertC]
  | cons p rest ih =>
    obtain ⟨k, w⟩ := p
    by_cases hk : k = c
    · simp only [insertC, if_pos hk, List.length_cons]
      omega
    · simp only [insertC, if_neg hk, List.length_cons]
      have := ih
      omega

theorem newSystems_length_le (cfg : GalaxyConfig) (draws : Nat → Coords)
    (tick : Nat) :
    ∀ (idx : List Nat) (acc : List (Coords × System)),
      (idx.foldl
        (fun acc i =>
          let c := draws i
          if (lookupC c acc).isSome then acc
          else insertC c (System.new tick cfg.systems) acc)
        acc).length ≤ acc.length + idx.length := by
  intro idx
  induction idx with
  | nil => simp
  | cons i rest ih =>
    intro acc
    simp only [List.foldl_cons, List.length_cons]
    by_cases hc : (lookupC (draws i) acc).isSome
    · simp only [hc, if_true]
      calc _ ≤ acc.length + rest.length := ih acc
        _ ≤ acc.length + (rest.length + 1) := by omega
    · simp only [hc]
      calc _ ≤ (insertC (draws i) (System.new tick cfg.systems) acc).length
            + rest.length := by
              simpa using ih (insertC (draws i) (System.new tick cfg.systems) acc)
        _ ≤ (acc.length + 1) + rest.length := by
              have := insertC_length (draws i) (System.new tick cfg.systems) acc
              omega
        _ = acc.length + (rest.length + 1) := by omega

end GW

/-- Claim C10: galaxy population undercount. Part 1: `Galaxy::new` creates
at most `config.system_count` systems for every draw sequence. Part 2:
with colliding draws it creates strictly fewer, yet `stats` still reports
`config.system_count` as the system count. Part 3: whenever `stats`
succeeds, the reported count is `config.system_count`, independent of the
actual number of systems. -/
theorem claim_C10 :
    (∀ (cfg : GW.GalaxyConfig) (draws : Nat → GW.Coords) (tick : Nat),
      (GW.Galaxy.new cfg draws tick).systems.length ≤ cfg.system_count) ∧
    ((GW.Galaxy.new GW.cfgTwo GW.drawsCollide 0).systems.length = 1 ∧
      GW.cfgTwo.system_count = 2 ∧
      ∃ out g',
        GW.Galaxy.stats 0 (GW.Galaxy.new GW.cfgTwo GW.drawsCollide 0) =
          some (.ok out, g') ∧
        out.1 = 2) ∧
    (∀ (tick : Nat) (g : GW.Galaxy) out g',
      GW.Galaxy.stats tick g = some (.ok out, g') →
      out.1 = g.config.system_count) := by
  refine ⟨?_, ⟨rfl, rfl, ?_⟩, ?_⟩
  · intro cfg draws tick
    have h := GW.newSystems_length_le cfg draws tick
      (List.range cfg.system_count) []
    simpa [GW.Galaxy.new] using h
  · exact ⟨(2, [(⟨0, 0⟩, 0, 0)]), _, rfl, rfl⟩
  · intro tick g out g' h
    by_cases htk : tick < g.tick
    · simp only [GW.Galaxy.stats, GW.Galaxy.update_tick, if_pos htk] at h
      exact absurd h (by simp)
    · simp only [GW.Galaxy.stats, GW.Galaxy.update_tick, if_neg htk] at h
      cases hse : GW.Galaxy.statsEntries g.config tick g.systems with
      | none => rw [hse] at h; exact absurd h (by simp)
      | some pr =>
        rw [hse] at h
        simp only [Option.some.injEq, Prod.mk.injEq] at h
        obtain ⟨h1, _⟩ := h
        have h2 : (g.config.system_count, pr.1) = out := by
          injection h1
        rw [← h2]

/-- Claim C10 witness: the reported-count theorem applied to the concrete
undercounted galaxy. -/
theorem claim_C10_witness :
    ((2 : Nat), [((⟨0, 0⟩ : GW.Coords), (0 : Nat), (0 : Nat))]).1 =
      GW.cfgTwo.system_count :=
  claim_C10.2.2 0 (GW.Galaxy.new GW.cfgTwo GW.drawsCollide 0)
    (2, [(⟨0, 0⟩, 0, 0)]) _ rfl

/-- Claim C3 counterexample: the claim says a build whose cost equals the
available resources in all three components is rejected, but the source's
`self.resources >= cost.resources` accepts the `Equal` case of the partial
order: with resources `⟨5, 3, 4⟩` and next-level cost `⟨5, 3, 4⟩` the
build succeeds. -/
theorem claim_C3_counterexample :
    (GW.cfgExactCost.cost .Colony 2).resources = GW.sysExact.resources ∧
    GW.System.build GW.cfgExactCost 0 .Colony GW.sysExact =
      some (.ok ⟨100, .Build, some .Colony⟩,
        { current_tick := 0
          events := [⟨100, .Build, some .Colony⟩]
          resources := ⟨0, 0, 0⟩
          structures := [⟨.Colony, 1⟩] }) :=
  ⟨rfl, rfl⟩

/-- Claim C3 (amended): on a present, not-already-building structure,
`build` fails with `InsufficientResources` exactly when the resources are
not `>=` the level-(current+1) cost under the `Resources` partial order —
that is, unless they are strictly greater in all three components or
exactly equal in all three. Exact equality is accepted, and any other
mixture of `≥` with equality is rejected. -/
theorem claim_C3_amended :
    ∀ (cfg : GW.GalaxyConfig) (t : Nat) (st : GW.StructureType)
      (s s₁ : GW.System),
      GW.System.update_to_tick cfg t s = some s₁ →
      s₁.events.any (fun e => e.structRef.isSome) = false →
      (s₁.structurePos st).isSome = true →
      ((GW.System.build cfg t st s =
          some (.error "Not enough resources", s₁)) ↔
        GW.Resources.ge s₁.resources
          (cfg.cost st (s₁.structure_level st + 1)).resources = false) ∧
      (GW.Resources.ge s₁.resources
          (cfg.cost st (s₁.structure_level st + 1)).resources = true →
        GW.System.build cfg t st s =
          some (.ok
            ⟨t + (cfg.cost st (s₁.structure_level st + 1)).ticks,
              .Build, some st⟩,
            GW.System.register_event
              { s₁ with resources := s₁.resources -
                  (cfg.cost st (s₁.structure_level st + 1)).resources }
              ⟨t + (cfg.cost st (s₁.structure_level st + 1)).ticks,
                .Build, some st⟩)) := by
  intro cfg t st s s₁ hupd hnb hpos
  have hb : GW.System.build cfg t st s =
      (if GW.Resources.ge s₁.resources
          (cfg.cost st (s₁.structure_level st + 1)).resources then
        some (.ok
          ⟨t + (cfg.cost st (s₁.structure_level st + 1)).ticks,
            .Build, some st⟩,
          GW.System.register_event
            { s₁ with resources := s₁.resources -
                (cfg.cost st (s₁.structure_level st + 1)).resources }
            ⟨t + (cfg.cost st (s₁.structure_level st + 1)).ticks,
              .Build, some st⟩)
      else
        some (.error "Not enough resources", s₁)) := by
    unfold GW.System.build
    rw [hupd]
    simp only [Option.some_bind, hnb, Bool.false_eq_true, if_false, hpos,
      if_true]
  by_cases hge : GW.Resources.ge s₁.resources
      (cfg.cost st (s₁.structure_level st + 1)).resources
  · rw [hb, if_pos hge]
    refine ⟨⟨fun h => absurd h (by simp), fun h => ?_⟩, fun _ => rfl⟩
    rw [hge] at h
    exact absurd h (by simp)
  · rw [hb, if_neg hge]
    refine ⟨⟨fun _ => by simpa using hge, fun _ => rfl⟩, fun h => ?_⟩
    exact absurd h (by simpa using hge)

/-- Claim C3 witness: a mixed comparison (equal metal and crew, smaller
water) is rejected with `InsufficientResources`. -/
theorem claim_C3_witness :
    GW.System.build GW.cfgExactCost 0 .Colony GW.sysPoor =
      some (.error "Not enough resources", GW.sysPoor) :=
  (claim_C3_amended GW.cfgExactCost 0 .Colony GW.sysPoor GW.sysPoor
    rfl rfl rfl).1.mpr rfl

/-- Claim C4 counterexample: the claim says every `update_to_tick` leaves
each resource component at or below its storage capacity regardless of the
starting resources, but a component with zero production rate is never
clamped: a system holding metal 5 with storage capacity 0 still holds
metal 5 after advancing from tick 0 to tick 10. -/
theorem claim_C4_counterexample :
    GW.System.update_to_tick GW.cfgZero 10 GW.sysOverfull =
      some { GW.sysOverfull with current_tick := 10 } ∧
    (GW.System.get_storage GW.cfgZero
        { GW.sysOverfull with current_tick := 10 }).metal = 0 ∧
    ({ GW.sysOverfull with current_tick := 10 } : GW.System).resources.metal
      = 5 :=
  ⟨rfl, rfl, rfl⟩

/-- Claim C4 (amended): a non-advancing call leaves the system unchanged;
an advancing call clamps every resource component with positive aggregate
production to its storage capacity, while a component with zero production
keeps exactly the value event processing left it (and may exceed the
capacity). -/
theorem claim_C4_amended :
    ∀ (cfg : GW.GalaxyConfig) (t : Nat) (s s' : GW.System),
      GW.System.update_to_tick cfg t s = some s' →
      (t ≤ s.current_tick → s' = s) ∧
      (s.current_tick < t →
        ∃ s₁, GW.System.process_events t s = some s₁ ∧
          s'.structures = s₁.structures ∧
          s'.current_tick = t ∧
          ((GW.System.get_production cfg s').metal > 0 →
            s'.resources.metal ≤ (GW.System.get_storage cfg s').metal) ∧
          ((GW.System.get_production cfg s').metal = 0 →
            s'.resources.metal = s₁.resources.metal) ∧
          ((GW.System.get_production cfg s').crew > 0 →
            s'.resources.crew ≤ (GW.System.get_storage cfg s').crew) ∧
          ((GW.System.get_production cfg s').crew = 0 →
            s'.resources.crew = s₁.resources.crew) ∧
          ((GW.System.get_production cfg s').water > 0 →
            s'.resources.water ≤ (GW.System.get_storage cfg s').water) ∧
          ((GW.System.get_production cfg s').water = 0 →
            s'.resources.water = s₁.resources.water)) := by
  intro cfg t s s' h
  unfold GW.System.update_to_tick at h
  by_cases hle : t ≤ s.current_tick
  · rw [if_pos hle] at h
    refine ⟨fun _ => by injection h with h'; exact h'.symm, fun hlt => ?_⟩
    omega
  · rw [if_neg hle] at h
    refine ⟨fun h' => absurd h' hle, fun _ => ?_⟩
    simp only [Option.bind_eq_some] at h
    obtain ⟨s₁, hpe, h⟩ := h
    obtain ⟨m, hm, h⟩ := h
    obtain ⟨w, hw, h⟩ := h
    obtain ⟨c, hc, h⟩ := h
    injection h with h
    subst h
    have hps : GW.System.get_production cfg
        { s₁ with resources := ⟨m, c, w⟩, current_tick := t } =
        GW.System.get_production cfg s₁ := rfl
    have hss : GW.System.get_storage cfg
        { s₁ with resources := ⟨m, c, w⟩, current_tick := t } =
        GW.System.get_storage cfg s₁ := rfl
    rw [hps, hss]
    refine ⟨s₁, hpe, rfl, rfl, ?_, ?_, ?_, ?_, ?_, ?_⟩
    · intro hp
      simp only [GW.System.produceRes, if_pos hp] at hm
      by_cases hi : 3600 / (GW.System.get_production cfg s₁).metal = 0
      · rw [if_pos hi] at hm; exact absurd hm (by simp)
      · rw [if_neg hi] at hm
        injection hm with hm
        show m ≤ _
        rw [← hm]
        exact Nat.min_le_right _ _
    · intro hp
      simp only [GW.System.produceRes] at hm
      rw [if_neg (by omega)] at hm
      injection hm with hm
      show m = _
      rw [hm]
    · intro hp
      simp only [GW.System.produceRes, if_pos hp] at hc
      by_cases hi : 3600 / (GW.System.get_production cfg s₁).crew = 0
      · rw [if_pos hi] at hc; exact absurd hc (by simp)
      · rw [if_neg hi] at hc
        injection hc with hc
        show c ≤ _
        rw [← hc]
        exact Nat.min_le_right _ _
    · intro hp
      simp only [GW.System.produceRes] at hc
      rw [if_neg (by omega)] at hc
      injection hc with hc
      show c = _
      rw [hc]
    · intro hp
      simp only [GW.System.produceRes, if_pos hp] at hw
      by_cases hi : 3600 / (GW.System.get_production cfg s₁).water = 0
      · rw [if_pos hi] at hw; exact absurd hw (by simp)
      · rw [if_neg hi] at hw
        injection hw with hw
        show w ≤ _
        rw [← hw]
        exact Nat.min_le_right _ _
    · intro hp
      simp only [GW.System.produceRes] at hw
      rw [if_neg (by omega)] at hw
      injection hw with hw
      show w = _
      rw [hw]

/-- Claim C4 witness: the amended cap theorem applied to a two-hour
advance with positive production on every component. -/
theorem claim_C4_witness :
    GW.sysProdAfter.resources.metal ≤
      (GW.System.get_storage GW.cfgProd GW.sysProdAfter).metal := by
  obtain ⟨s₁, -, -, -, hcap, -⟩ :=
    (claim_C4_amended GW.cfgProd 7200 GW.sysProd GW.sysProdAfter rfl).2
      (by decide)
  exact hcap (by decide)

/-- Claim C8 counterexample: the claim says `get_details` and `build` with
a coordinate at which no system exists return an error, but both `unwrap`
the coordinate lookup and panic (`none` in this model). -/
theorem claim_C8_counterexample :
    GW.Galaxy.get_details 5 ⟨0, 0⟩ none GW.galaxyEmpty = none ∧
    GW.Galaxy.build 5 ⟨0, 0⟩ .Colony GW.galaxyEmpty = none :=
  ⟨rfl, rfl⟩

/-- Claim C8 (amended): the public operations reject an out-of-order tick
with a structured error and unchanged state, but `get_details` and `build`
with a coordinate at which no system exists panic (unwrap on `None`)
rather than returning an error. -/
theorem claim_C8_amended :
    ∀ (g : GW.Galaxy) (t : Nat) (c : GW.Coords)
      (st? : Option GW.StructureType) (st : GW.StructureType),
      (t < g.tick →
        GW.Galaxy.get_details t c st? g =
          some (.error "Tick is out of order", g) ∧
        GW.Galaxy.build t c st g =
          some (.error "Tick is out of order", g) ∧
        GW.Galaxy.stats t g =
          some (.error "Tick is out of order", g)) ∧
      (g.tick ≤ t → GW.lookupC c g.systems = none →
        GW.Galaxy.get_details t c st? g = none ∧
        GW.Galaxy.build t c st g = none) := by
  intro g t c st? st
  constructor
  · intro hlt
    refine ⟨?_, ?_, ?_⟩ <;>
      simp [GW.Galaxy.get_details, GW.Galaxy.build, GW.Galaxy.stats,
        GW.Galaxy.update_tick, if_pos hlt]
  · intro hle hlook
    have hnlt : ¬ t < g.tick := by omega
    constructor <;>
      simp [GW.Galaxy.get_details, GW.Galaxy.build, GW.Galaxy.update_tick,
        if_neg hnlt, hlook]

/-- Claim C8 witness: the amended theorem at a concrete galaxy — a stale
tick is rejected cleanly, a missing coordinate panics. -/
theorem claim_C8_witness :
    GW.Galaxy.build 3 ⟨1, 1⟩ .Colony
        { GW.galaxyEmpty with tick := 5 } =
      some (.error "Tick is out of order",
        { GW.galaxyEmpty with tick := 5 }) ∧
    GW.Galaxy.build 7 ⟨1, 1⟩ .Colony
        { GW.galaxyEmpty with tick := 5 } = none :=
  ⟨((claim_C8_amended { GW.galaxyEmpty with tick := 5 } 3 ⟨1, 1⟩
      none .Colony).1 (by decide)).2.1,
    ((claim_C8_amended { GW.galaxyEmpty with tick := 5 } 7 ⟨1, 1⟩
      none .Colony).2 (by decide) rfl).2⟩

namespace GW

theorem ge_le_components {a b : Resources} (h : Resources.ge a b = true) :
    b.metal ≤ a.metal ∧ b.crew ≤ a.crew ∧ b.water ≤ a.water := by
  unfold Resources.ge Resources.cmp? at h
  by_cases h1 : a.metal > b.metal ∧ a.crew > b.crew ∧ a.water > b.water
  · exact ⟨le_of_lt h1.1, le_of_lt h1.2.1, le_of_lt h1.2.2⟩
  · rw [if_neg h1] at h
    by_cases h2 : a.metal < b.metal ∧ a.crew < b.crew ∧ a.water < b.water
    · rw [if_pos h2] at h
      exact absurd h (by simp)
    · rw [if_neg h2] at h
      by_cases h3 : a.metal = b.metal ∧ a.crew = b.crew ∧ a.water = b.water
      · exact ⟨le_of_eq h3.1.symm, le_of_eq h3.2.1.symm,
          le_of_eq h3.2.2.symm⟩
      · rw [if_neg h3] at h
        exact absurd h (by simp)

theorem Resources.sub_add_of_le {a b : Resources} (h1 : b.metal ≤ a.metal)
    (h2 : b.crew ≤ a.crew) (h3 : b.water ≤ a.water) : a - b + b = a := by
  obtain ⟨am, ac, aw⟩ := a
  obtain ⟨bm, bc, bw⟩ := b
  simp only at h1 h2 h3
  show Resources.add (Resources.sub _ _) _ = _
  unfold Resources.add Resources.sub
  simp only [Resources.mk.injEq]
  refine ⟨?_, ?_, ?_⟩ <;> omega

theorem insertByCompletion_perm (e : Event) :
    ∀ l : List Event, (System.insertByCompletion e l).Perm (e :: l) := by
  intro l
  induction l with
  | nil => exact List.Perm.refl _
  | cons x xs ih =>
    unfold System.insertByCompletion
    by_cases h : e.completion < x.completion
    · rw [if_pos h]
    · rw [if_neg h]
      exact (ih.cons x).trans (List.Perm.swap e x xs)

theorem sortByCompletion_perm :
    ∀ l : List Event, (System.sortByCompletion l).Perm l := by
  intro l
  induction l with
  | nil => exact List.Perm.refl _
  | cons x xs ih =>
    exact (insertByCompletion_perm x (System.sortByCompletion xs)).trans
      (ih.cons x)

theorem register_event_perm (s : System) (e : Event) :
    (s.register_event e).events.Perm (e :: s.events) := by
  unfold System.register_event
  exact (sortByCompletion_perm (s.events ++ [e])).trans
    (List.perm_append_singleton e s.events)

end GW

/-- Claim C6: build success postcondition. Whenever `build(tick, st)`
succeeds with event `ev`, the post-update state `s₁` exists and: `ev` is
the build-completion event with completion `tick + cost.duration` for the
cost computed at level `current_level + 1`; the resources decreased by
exactly that cost; the pending events gained exactly the returned event
(and nothing else); clock and structures are untouched by the build
itself. -/
theorem claim_C6 :
    ∀ (cfg : GW.GalaxyConfig) (t : Nat) (st : GW.StructureType)
      (s : GW.System) (ev : GW.Event) (s' : GW.System),
      GW.System.build cfg t st s = some (.ok ev, s') →
      ∃ s₁, GW.System.update_to_tick cfg t s = some s₁ ∧
        ev = ⟨t + (cfg.cost st (s₁.structure_level st + 1)).ticks,
          .Build, some st⟩ ∧
        s'.resources +
          (cfg.cost st (s₁.structure_level st + 1)).resources =
            s₁.resources ∧
        s'.events.Perm (ev :: s₁.events) ∧
        s'.current_tick = s₁.current_tick ∧
        s'.structures = s₁.structures := by
  intro cfg t st s ev s' h
  unfold GW.System.build at h
  simp only [Option.bind_eq_some] at h
  obtain ⟨s₁, hupd, h⟩ := h
  refine ⟨s₁, hupd, ?_⟩
  by_cases hb : s₁.events.any (fun e => e.structRef.isSome) = true
  · rw [if_pos hb] at h
    exact absurd h (by simp)
  · rw [if_neg hb] at h
    by_cases hpos : (s₁.structurePos st).isSome = true
    · rw [if_pos hpos] at h
      by_cases hge : GW.Resources.ge s₁.resources
          (cfg.cost st (s₁.structure_level st + 1)).resources = true
      · rw [if_pos hge] at h
        simp only [Option.some.injEq, Prod.mk.injEq, Except.ok.injEq] at h
        obtain ⟨hev, hs'⟩ := h
        subst hev
        subst hs'
        obtain ⟨hm, hc, hw⟩ := GW.ge_le_components hge
        refine ⟨rfl, ?_, ?_, rfl, rfl⟩
        · exact GW.Resources.sub_add_of_le hm hc hw
        · exact GW.register_event_perm _ _
      · rw [if_neg hge] at h
        exact absurd h (by simp)
    · rw [if_neg hpos] at h
      exact absurd h (by simp)

/-- Claim C6 witness: the postcondition theorem applied to the concrete
successful build of `sysExact`. -/
theorem claim_C6_witness :
    ∃ s₁, GW.System.update_to_tick GW.cfgExactCost 0 GW.sysExact =
        some s₁ ∧
      (⟨100, .Build, some .Colony⟩ : GW.Event) =
        ⟨0 + (GW.cfgExactCost.cost .Colony
          (s₁.structure_level .Colony + 1)).ticks, .Build, some .Colony⟩ ∧
      ({ current_tick := 0
         events := [⟨100, .Build, some .Colony⟩]
         resources := ⟨0, 0, 0⟩
         structures := [⟨.Colony, 1⟩] } : GW.System).resources +
        (GW.cfgExactCost.cost .Colony
          (s₁.structure_level .Colony + 1)).resources = s₁.resources ∧
      ([⟨100, .Build, some .Colony⟩] : List GW.Event).Perm
        (⟨100, .Build, some .Colony⟩ :: s₁.events) ∧
      (0 : Nat) = s₁.current_tick ∧
      ([⟨.Colony, 1⟩] : List GW.Structure) = s₁.structures :=
  claim_C6 GW.cfgExactCost 0 .Colony GW.sysExact
    ⟨100, .Build, some .Colony⟩
    { current_tick := 0
      events := [⟨100, .Build, some .Colony⟩]
      resources := ⟨0, 0, 0⟩
      structures := [⟨.Colony, 1⟩] } rfl


namespace GW

theorem processEventsFuel_succ (t n : Nat) (s : System) :
    System.processEventsFuel t (n + 1) s =
      (if s.event_to_process t then
        match System.foldEvents t s.events { s with events := [] } with
        | some s' => System.processEventsFuel t n s'
        | none => none
      else some s) := rfl

theorem event_callback_fields {t : Nat} {s : System} {e : Event}
    {s' : System} (h : System.event_callback t s e = some s') :
    s'.events = s.events ∧ s'.resources = s.resources ∧
      s'.current_tick = s.current_tick := by
  unfold System.event_callback at h
  by_cases hc : e.completion > t
  · rw [if_pos hc] at h
    injection h with h
    subst h
    exact ⟨rfl, rfl, rfl⟩
  · rw [if_neg hc] at h
    cases hact : e.action
    cases hsr : e.structRef with
    | none =>
      simp only [hact, hsr] at h
      exact absurd h (by simp)
    | some st =>
      cases hp : s.structurePos st with
      | none =>
        simp only [hact, hsr, hp] at h
        exact absurd h (by simp)
      | some i =>
        simp only [hact, hsr, hp, Option.some.injEq] at h
        subst h
        exact ⟨rfl, rfl, rfl⟩

theorem countP_register_event (p : Event → Bool) (s : System) (e : Event) :
    (s.register_event e).events.countP p =
      s.events.countP p + (if p e then 1 else 0) := by
  rw [(register_event_perm s e).countP_eq p, List.countP_cons]

theorem foldEvents_countP (t : Nat) (p : Event → Bool) :
    ∀ (es : List Event) (s s' : System),
      System.foldEvents t es s = some s' →
      s'.events.countP p ≤ s.events.countP p + es.countP p := by
  intro es
  induction es with
  | nil =>
    intro s s' h
    injection h with h
    subst h
    simp
  | cons e es ih =>
    intro s s' h
    unfold System.foldEvents at h
    by_cases hc : e.completion ≤ t
    · rw [if_pos hc] at h
      simp only [Option.bind_eq_some] at h
      obtain ⟨s₀, hec, hf⟩ := h
      have hev := (event_callback_fields hec).1
      have hrec := ih s₀ s' hf
      rw [hev] at hrec
      have hcons := List.countP_cons p e es
      omega
    · rw [if_neg hc] at h
      have hrec := ih _ s' h
      rw [countP_register_event] at hrec
      have hcons := List.countP_cons p e es
      omega

theorem processEventsFuel_countP (t : Nat) (p : Event → Bool) :
    ∀ (fuel : Nat) (s s' : System),
      System.processEventsFuel t fuel s = some s' →
      s'.events.countP p ≤ s.events.countP p := by
  intro fuel
  induction fuel with
  | zero =>
    intro s s' h
    exact absurd h (by simp [System.processEventsFuel])
  | succ n ih =>
    intro s s' h
    rw [processEventsFuel_succ] at h
    by_cases hg : s.event_to_process t
    · rw [if_pos hg] at h
      cases hf : System.foldEvents t s.events { s with events := [] } with
      | none => rw [hf] at h; exact absurd h (by simp)
      | some s₀ =>
        rw [hf] at h
        have h1 : s₀.events.countP p ≤ 0 + s.events.countP p :=
          foldEvents_countP t p s.events _ s₀ hf
        have h2 := ih s₀ s' h
        omega
    · rw [if_neg hg] at h
      injection h with h
      subst h
      exact le_refl _

theorem process_events_countP {t : Nat} {p : Event → Bool} {s s' : System}
    (h : System.process_events t s = some s') :
    s'.events.countP p ≤ s.events.countP p :=
  processEventsFuel_countP t p _ s s' h

theorem update_to_tick_cases {cfg : GalaxyConfig} {t : Nat} {s s' : System}
    (h : System.update_to_tick cfg t s = some s') :
    (t ≤ s.current_tick ∧ s' = s) ∨
    (s.current_tick < t ∧ ∃ s₁, System.process_events t s = some s₁ ∧
      s'.events = s₁.events ∧ s'.structures = s₁.structures ∧
      s'.resources.metal ≥ 0 ∧ s'.current_tick = t) := by
  unfold System.update_to_tick at h
  by_cases hle : t ≤ s.current_tick
  · rw [if_pos hle] at h
    injection h with h
    exact Or.inl ⟨hle, h.symm⟩
  · rw [if_neg hle] at h
    simp only [Option.bind_eq_some] at h
    obtain ⟨s₁, hpe, m, hm, w, hw, c, hc, h⟩ := h
    injection h with h
    subst h
    exact Or.inr ⟨by omega, s₁, hpe, rfl, rfl, by omega, rfl⟩

theorem update_to_tick_countP {cfg : GalaxyConfig} {t : Nat} {s s' : System}
    (p : Event → Bool) (h : System.update_to_tick cfg t s = some s') :
    s'.events.countP p ≤ s.events.countP p := by
  rcases update_to_tick_cases h with ⟨_, rfl⟩ | ⟨_, s₁, hpe, he, _⟩
  · exact le_refl _
  · rw [he]
    exact process_events_countP hpe

theorem process_events_no_due (t : Nat) (s : System)
    (h : ∀ e ∈ s.events, t < e.completion) :
    System.process_events t s = some s := by
  unfold System.process_events
  rw [processEventsFuel_succ]
  have hg : s.event_to_process t = false := by
    unfold System.event_to_process
    cases hh : s.events.head? with
    | none => rfl
    | some e =>
      have hm : e ∈ s.events := List.mem_of_mem_head? hh
      have := h e hm
      simp [Nat.not_le.mpr this]
  rw [hg]
  simp

theorem update_to_tick_nil_events {cfg : GalaxyConfig} {t : Nat}
    {s s' : System} (hev : s.events = [])
    (h : System.update_to_tick cfg t s = some s') :
    s'.events = [] ∧ s'.structures = s.structures ∧
      (s.current_tick ≤ t → s'.current_tick = t) := by
  rcases update_to_tick_cases h with ⟨hle, rfl⟩ | ⟨hlt, s₁, hpe, he, hstr, _, hct⟩
  · exact ⟨hev, rfl, fun _ => by omega⟩
  · have hnd := process_events_no_due t s (by rw [hev]; intro e he'; cases he')
    rw [hnd] at hpe
    injection hpe with hpe
    subst hpe
    exact ⟨by rw [he, hev], hstr, fun _ => hct⟩

theorem update_to_tick_no_due {cfg : GalaxyConfig} {t : Nat} {s s' : System}
    (hnd : ∀ e ∈ s.events, t < e.completion)
    (h : System.update_to_tick cfg t s = some s') :
    s'.events = s.events ∧ s'.structures = s.structures := by
  rcases update_to_tick_cases h with ⟨_, rfl⟩ | ⟨_, s₁, hpe, he, hstr, _, _⟩
  · exact ⟨rfl, rfl⟩
  · rw [process_events_no_due t s hnd] at hpe
    injection hpe with hpe
    subst hpe
    exact ⟨he, hstr⟩

theorem bumpAt_map_name : ∀ (l : List Structure) (i : Nat),
    (System.bumpAt l i).map Structure.name = l.map Structure.name := by
  intro l
  induction l with
  | nil => intro i; rfl
  | cons b bs ih =>
    intro i
    cases i with
    | zero => rfl
    | succ n => simp [System.bumpAt, ih n]

theorem structurePos_congr {s₁ s₂ : System}
    (h : s₁.structures.map Structure.name = s₂.structures.map Structure.name)
    (st : StructureType) : s₁.structurePos st = s₂.structurePos st := by
  unfold System.structurePos
  have e₁ := List.findIdx?_map (p := fun n => decide (n = st))
    Structure.name s₁.structures
  have e₂ := List.findIdx?_map (p := fun n => decide (n = st))
    Structure.name s₂.structures
  rw [show (fun b : Structure => decide (b.name = st)) =
      ((fun n => decide (n = st)) ∘ Structure.name) from rfl]
  rw [← e₁, ← e₂, h]

theorem process_drain_single {t : Nat} {s : System} {ev : Event}
    {st : StructureType} {i : Nat}
    (hev : s.events = [ev]) (hc : ev.completion ≤ t)
    (hact : ev.action = .Build) (hsr : ev.structRef = some st)
    (hpos : s.structurePos st = some i) :
    System.process_events t s =
      some { s with events := [],
                    structures := System.bumpAt s.structures i } := by
  unfold System.process_events
  rw [hev]
  simp only [List.length_cons, List.length_nil]
  rw [processEventsFuel_succ]
  have hg : s.event_to_process t = true := by
    unfold System.event_to_process
    rw [hev]
    simp [hc]
  rw [if_pos hg, hev]
  have hcb : System.event_callback t { s with events := [] } ev =
      some { s with events := [],
                    structures := System.bumpAt s.structures i } := by
    unfold System.event_callback
    rw [if_neg (by omega : ¬ ev.completion > t)]
    have hpos' : ({ s with events := [] } : System).structurePos st =
        some i := hpos
    simp only [hact, hsr, hpos']
  have hfold : System.foldEvents t [ev] { s with events := [] } =
      some { s with events := [],
                    structures := System.bumpAt s.structures i } := by
    unfold System.foldEvents
    rw [if_pos hc, hcb]
    rfl
  rw [hfold]
  show System.processEventsFuel t (0 + 1) _ = _
  rw [processEventsFuel_succ]
  have hg2 : System.event_to_process
      { s with events := [],
               structures := System.bumpAt s.structures i } t = false := rfl
  rw [hg2]
  simp

end GW

/-- Claim C5: single in-flight build. Part 1: the invariant "at most one
pending event references a structure build" is preserved by
`update_to_tick` and by `build` (and so by every public operation, which
reduce to these). Part 2: after a successful `build` on an event-free
system, any second `build` presented before the event's completion tick
fails with `AlreadyBuilding`. Part 3: once the completion tick is reached,
a new `build` of the same structure with sufficient resources succeeds. -/
theorem claim_C5 :
    (∀ (cfg : GW.GalaxyConfig) (t : Nat) (s : GW.System),
      GW.buildEvCount s ≤ 1 →
      (∀ s', GW.System.update_to_tick cfg t s = some s' →
        GW.buildEvCount s' ≤ 1) ∧
      (∀ st r s'', GW.System.build cfg t st s = some (r, s'') →
        GW.buildEvCount s'' ≤ 1)) ∧
    (∀ (cfg : GW.GalaxyConfig) (t : Nat) (st : GW.StructureType)
      (s : GW.System) (ev : GW.Event) (s' : GW.System),
      s.events = [] → s.current_tick ≤ t →
      GW.System.build cfg t st s = some (.ok ev, s') →
      (∀ (t' : Nat) (st₂ : GW.StructureType) (s₂ : GW.System),
        t' < ev.completion →
        GW.System.update_to_tick cfg t' s' = some s₂ →
        GW.System.build cfg t' st₂ s' =
          some (.error "Already building a structure", s₂)) ∧
      (∀ (t'' : Nat) (s₂ : GW.System),
        t < ev.completion → ev.completion ≤ t'' →
        GW.System.update_to_tick cfg t'' s' = some s₂ →
        GW.Resources.ge s₂.resources
          (cfg.cost st (s₂.structure_level st + 1)).resources = true →
        ∃ ev₂ s₃, GW.System.build cfg t'' st s' = some (.ok ev₂, s₃))) := by
  constructor
  · -- Part 1: invariant preservation.
    intro cfg t s hinv
    constructor
    · intro s' h
      exact le_trans (GW.update_to_tick_countP _ h) hinv
    · intro st r s'' h
      unfold GW.System.build at h
      simp only [Option.bind_eq_some] at h
      obtain ⟨s₁, hupd, h⟩ := h
      have hs₁ : GW.buildEvCount s₁ ≤ 1 :=
        le_trans (GW.update_to_tick_countP _ hupd) hinv
      by_cases hb : s₁.events.any (fun e => e.structRef.isSome) = true
      · rw [if_pos hb] at h
        injection h with h
        rw [← (Prod.mk.injEq _ _ _ _).mp h |>.2]
        exact hs₁
      · rw [if_neg hb] at h
        have hb' : s₁.events.any (fun e => e.structRef.isSome) = false := by
          cases hx : s₁.events.any (fun e => e.structRef.isSome)
          · rfl
          · exact absurd hx hb
        have hzero : GW.buildEvCount s₁ = 0 := by
          unfold GW.buildEvCount
          rw [List.countP_eq_zero]
          exact List.any_eq_false.mp hb'
        by_cases hpos : (s₁.structurePos st).isSome = true
        · rw [if_pos hpos] at h
          by_cases hge : GW.Resources.ge s₁.resources
              (cfg.cost st (s₁.structure_level st + 1)).resources = true
          · rw [if_pos hge] at h
            injection h with h
            have hs'' := ((Prod.mk.injEq _ _ _ _).mp h).2
            rw [← hs'']
            unfold GW.buildEvCount
            rw [GW.countP_register_event]
            have hz2 : GW.buildEvCount
                { s₁ with resources := s₁.resources -
                  (cfg.cost st (s₁.structure_level st + 1)).resources } = 0 :=
              hzero
            unfold GW.buildEvCount at hz2
            rw [hz2]
            simp
          · rw [if_neg hge] at h
            injection h with h
            rw [← ((Prod.mk.injEq _ _ _ _).mp h).2]
            exact hs₁
        · rw [if_neg hpos] at h
          injection h with h
          rw [← ((Prod.mk.injEq _ _ _ _).mp h).2]
          exact hs₁
  · -- Parts 2 and 3: behaviour around one in-flight build event.
    intro cfg t st s ev s' hev hct hok
    unfold GW.System.build at hok
    simp only [Option.bind_eq_some] at hok
    obtain ⟨s₁, hupd, hok⟩ := hok
    obtain ⟨h₁ev, h₁str, h₁ct⟩ := GW.update_to_tick_nil_events hev hupd
    have h₁ct' := h₁ct hct
    by_cases hb : s₁.events.any (fun e => e.structRef.isSome) = true
    · rw [if_pos hb] at hok
      exact absurd hok (by simp)
    · rw [if_neg hb] at hok
      by_cases hpos : (s₁.structurePos st).isSome = true
      · rw [if_pos hpos] at hok
        by_cases hge : GW.Resources.ge s₁.resources
            (cfg.cost st (s₁.structure_level st + 1)).resources = true
        · rw [if_pos hge] at hok
          simp only [Option.some.injEq, Prod.mk.injEq, Except.ok.injEq]
            at hok
          obtain ⟨hevq, hs'⟩ := hok
          subst hevq
          obtain ⟨i, hi⟩ := Option.isSome_iff_exists.mp hpos
          -- Facts about the post-build state s'.
          have hs'ev : s'.events =
              [⟨t + (cfg.cost st (s₁.structure_level st + 1)).ticks,
                .Build, some st⟩] := by
            rw [← hs']
            unfold GW.System.register_event
            show GW.System.sortByCompletion
              (({ s₁ with resources := _ } : GW.System).events ++ _) = _
            have hre : ({ s₁ with resources := s₁.resources -
                (cfg.cost st (s₁.structure_level st + 1)).resources } :
                GW.System).events = [] := h₁ev
            rw [hre]
            rfl
          have hs'ct : s'.current_tick = t := by
            rw [← hs']
            exact h₁ct'
          have hs'pos : s'.structurePos st = some i := by
            rw [← hs']
            exact hi
          have hcompl : (⟨t +
              (cfg.cost st (s₁.structure_level st + 1)).ticks,
              .Build, some st⟩ : GW.Event).completion =
              t + (cfg.cost st (s₁.structure_level st + 1)).ticks := rfl
          constructor
          · -- Part 2: AlreadyBuilding before the completion tick.
            intro t' st₂ s₂ hlt hupd2
            have hnd : ∀ e ∈ s'.events, t' < e.completion := by
              rw [hs'ev]
              intro e he
              rw [List.mem_singleton] at he
              subst he
              exact hlt
            obtain ⟨h₂ev, _⟩ := GW.update_to_tick_no_due hnd hupd2
            rw [hs'ev] at h₂ev
            unfold GW.System.build
            rw [hupd2]
            simp only [Option.some_bind]
            rw [h₂ev]
            simp
          · -- Part 3: a new build succeeds at or after completion.
            intro t'' s₂ htlt hle2 hupd2 hge2
            rw [hcompl] at htlt hle2
            have hdrain := GW.process_drain_single (t := t'') hs'ev
              hle2 rfl rfl hs'pos
            have hnle : ¬ t'' ≤ s'.current_tick := by
              rw [hs'ct]
              omega
            -- Characterise s₂ from the hypothesised update at t''.
            unfold GW.System.update_to_tick at hupd2
            rw [if_neg hnle, hdrain] at hupd2
            simp only [Option.some_bind, Option.bind_eq_some,
              Option.some.injEq] at hupd2
            obtain ⟨m, hm, w, hw, c, hc, hupd2⟩ := hupd2
            have h₂ev : s₂.events = [] := by
              rw [← hupd2]
            have h₂str : s₂.structures =
                GW.System.bumpAt s'.structures i := by
              rw [← hupd2]
            have h₂pos : s₂.structurePos st = some i := by
              have hnames : s₂.structures.map GW.Structure.name =
                  s'.structures.map GW.Structure.name := by
                rw [h₂str]
                exact GW.bumpAt_map_name s'.structures i
              exact (GW.structurePos_congr hnames st).trans hs'pos
            -- Reassemble the update equation and run the second build.
            have hupdEq : GW.System.update_to_tick cfg t'' s' = some s₂ := by
              unfold GW.System.update_to_tick
              rw [if_neg hnle, hdrain]
              simp only [Option.some_bind]
              rw [hm]
              simp only [Option.some_bind]
              rw [hw]
              simp only [Option.some_bind]
              rw [hc]
              simp only [Option.some_bind]
              rw [hupd2]
            have hfinal : GW.System.build cfg t'' st s' =
                some (.ok ⟨t'' +
                    (cfg.cost st (s₂.structure_level st + 1)).ticks,
                    .Build, some st⟩,
                  GW.System.register_event
                    { s₂ with resources := s₂.resources -
                      (cfg.cost st (s₂.structure_level st + 1)).resources }
                    ⟨t'' + (cfg.cost st (s₂.structure_level st + 1)).ticks,
                      .Build, some st⟩) := by
              unfold GW.System.build
              rw [hupdEq]
              simp only [Option.some_bind]
              rw [show (s₂.events.any fun e => e.structRef.isSome) =
                  false from by rw [h₂ev]; rfl]
              rw [show (s₂.structurePos st).isSome = true from by
                rw [h₂pos]; rfl]
              simp only [Bool.false_eq_true, if_false, if_true]
              rw [hge2]
              simp
            exact ⟨_, _, hfinal⟩
        · rw [if_neg hge] at hok
          exact absurd hok (by simp)
      · rw [if_neg hpos] at hok
        exact absurd hok (by simp)

/-- Claim C5 witness: the AlreadyBuilding rejection applied to the
concrete system right after a successful build (completion tick 100,
second attempt at tick 50). -/
theorem claim_C5_witness :
    GW.System.build GW.cfgExactCost 50 .Colony
        { current_tick := 0
          events := [⟨100, .Build, some .Colony⟩]
          resources := ⟨0, 0, 0⟩
          structures := [⟨.Colony, 1⟩] } =
      some (.error "Already building a structure",
        { current_tick := 50
          events := [⟨100, .Build, some .Colony⟩]
          resources := ⟨0, 0, 0⟩
          structures := [⟨.Colony, 1⟩] }) :=
  (claim_C5.2 GW.cfgExactCost 0 .Colony GW.sysExact
      ⟨100, .Build, some .Colony⟩ _ rfl (by decide) rfl).1
    50 .Colony _ (by decide) rfl

namespace GW

theorem update_tick_lt {g : Galaxy} {t : Nat} (h : t < g.tick) :
    Galaxy.update_tick t g = .error "Tick is out of order" := by
  unfold Galaxy.update_tick
  rw [if_pos h]

theorem update_tick_ge {g : Galaxy} {t : Nat} (h : ¬ t < g.tick) :
    Galaxy.update_tick t g = .ok { g with tick := t } := by
  unfold Galaxy.update_tick
  rw [if_neg h]

theorem mark_system_dirty_fields (c : Coords) (g : Galaxy) :
    (Galaxy.mark_system_dirty c g).tick = g.tick ∧
    (Galaxy.mark_system_dirty c g).config = g.config ∧
    (Galaxy.mark_system_dirty c g).systems = g.systems :=
  ⟨rfl, rfl, rfl⟩

theorem markAllCoordsDirty_tick (g : Galaxy) :
    (Galaxy.markAllCoordsDirty g).tick = g.tick := by
  unfold Galaxy.markAllCoordsDirty
  generalize g.systems.map Prod.fst = cs
  induction cs generalizing g with
  | nil => rfl
  | cons c cs ih =>
    simp only [List.foldl_cons]
    rw [ih (Galaxy.mark_system_dirty c g)]
    rfl

theorem system_get_details_ok {cfg : GalaxyConfig} {tick : Nat}
    {st? : Option StructureType} {s : System} {x : Except String Details}
    {s' : System} (h : System.get_details cfg tick st? s = some (x, s')) :
    ∃ d, x = .ok d := by
  unfold System.get_details at h
  simp only [Option.bind_eq_some] at h
  obtain ⟨s₁, _, h⟩ := h
  cases st? with
  | some st =>
    simp only [Option.some.injEq, Prod.mk.injEq] at h
    exact ⟨_, h.1.symm⟩
  | none =>
    simp only [Option.bind_eq_some, Option.some.injEq, Prod.mk.injEq] at h
    obtain ⟨s₂, _, h⟩ := h
    exact ⟨_, h.1.symm⟩

theorem build_result_msgs {cfg : GalaxyConfig} {t : Nat}
    {st : StructureType} {s : System} {r : Except String Event}
    {s' : System} (h : System.build cfg t st s = some (r, s')) :
    (∃ ev, r = .ok ev) ∨ r = .error "Already building a structure" ∨
      r = .error "Not enough resources" ∨
      r = .error "Structure not found" := by
  unfold System.build at h
  simp only [Option.bind_eq_some] at h
  obtain ⟨s₁, _, h⟩ := h
  by_cases hb : s₁.events.any (fun e => e.structRef.isSome) = true
  · rw [if_pos hb] at h
    simp only [Option.some.injEq, Prod.mk.injEq] at h
    exact Or.inr (Or.inl h.1.symm)
  · rw [if_neg hb] at h
    by_cases hpos : (s₁.structurePos st).isSome = true
    · rw [if_pos hpos] at h
      by_cases hge : Resources.ge s₁.resources
          (cfg.cost st (s₁.structure_level st + 1)).resources = true
      · rw [if_pos hge] at h
        simp only [Option.some.injEq, Prod.mk.injEq] at h
        exact Or.inl ⟨_, h.1.symm⟩
      · rw [if_neg hge] at h
        simp only [Option.some.injEq, Prod.mk.injEq] at h
        exact Or.inr (Or.inr (Or.inl h.1.symm))
    · rw [if_neg hpos] at h
      simp only [Option.some.injEq, Prod.mk.injEq] at h
      exact Or.inr (Or.inr (Or.inr h.1.symm))

theorem stepCall_gate_ok {g : Galaxy} {call : GCall}
    {r : CallResult} {g' : Galaxy} (hge : g.tick ≤ call.tick)
    (h : stepCall g call = some (r, g')) :
    r.isOutOfOrder = false ∧ g'.tick = call.tick := by
  have hnlt : ¬ call.tick < g.tick := by omega
  cases call with
  | getDetails t c st? =>
    simp only [GCall.tick] at hnlt ⊢
    simp only [stepCall, Galaxy.get_details, update_tick_ge hnlt] at h
    split at h
    · exact absurd h (by simp)
    · split at h
      · exact absurd h (by simp)
      · rename_i sys hl pr rr sys' hd
        simp only [Option.map_some', Option.some.injEq, Prod.mk.injEq] at h
        obtain ⟨hr, hg'⟩ := h
        obtain ⟨d, hd'⟩ := system_get_details_ok hd
        subst hd'
        constructor
        · rw [← hr]; rfl
        · rw [← hg']
          by_cases hne : t ≠ g.tick <;>
            simp [hne, Galaxy.mark_system_dirty]
  | buildCall t c st =>
    simp only [GCall.tick] at hnlt ⊢
    simp only [stepCall, Galaxy.build, update_tick_ge hnlt] at h
    split at h
    · exact absurd h (by simp)
    · split at h
      · exact absurd h (by simp)
      · rename_i sys hl pr rr sys' hd
        simp only [Option.map_some', Option.some.injEq, Prod.mk.injEq] at h
        obtain ⟨hr, hg'⟩ := h
        constructor
        · rw [← hr]
          rcases build_result_msgs hd with ⟨ev, hx⟩ | hx | hx | hx <;>
            subst hx <;> simp [CallResult.isOutOfOrder]
        · rw [← hg']
          by_cases hok : (rr.toBool : Bool) <;>
            simp [hok, Galaxy.mark_system_dirty]
  | statsCall t =>
    simp only [GCall.tick] at hnlt ⊢
    simp only [stepCall, Galaxy.stats, update_tick_ge hnlt] at h
    split at h
    · exact absurd h (by simp)
    all_goals
      simp only [Option.map_some', Option.some.injEq, Prod.mk.injEq] at h
      obtain ⟨hr, hg'⟩ := h
      refine ⟨by rw [← hr]; rfl, ?_⟩
      rw [← hg']
      by_cases hne : t ≠ g.tick
      · rw [if_pos hne, markAllCoordsDirty_tick]
      · rw [if_neg hne]

end GW

/-- Claim C2: tick monotonicity with atomic rejection. Part 1: along any
panic-free run of public calls whose ticks are non-decreasing and start at
or after the galaxy's tick, no call is rejected as out of order. Part 2: a
call presenting a tick strictly below the galaxy's current tick returns
the `OutOfOrderTick` error with the galaxy — tick, systems, dirty marks —
exactly unchanged. -/
theorem claim_C2 :
    (∀ (g : GW.Galaxy) (calls : List GW.GCall) rs g',
      GW.runCalls g calls = some (rs, g') →
      List.Chain' (fun a b => GW.GCall.tick a ≤ GW.GCall.tick b) calls →
      (∀ c0 ∈ calls.head?, g.tick ≤ GW.GCall.tick c0) →
      ∀ r ∈ rs, r.isOutOfOrder = false) ∧
    (∀ (g : GW.Galaxy) (call : GW.GCall), call.tick < g.tick →
      ∃ r, GW.stepCall g call = some (r, g) ∧ r.isOutOfOrder = true) := by
  constructor
  · intro g calls
    induction calls generalizing g with
    | nil =>
      intro rs g' h _ _ r hr
      simp only [GW.runCalls, Option.some.injEq, Prod.mk.injEq] at h
      rw [← h.1] at hr
      cases hr
    | cons c cs ih =>
      intro rs g' h hchain hhead
      simp only [GW.runCalls, Option.bind_eq_some, Option.some.injEq,
        Prod.mk.injEq] at h
      obtain ⟨⟨r₁, g₁⟩, hstep, ⟨rs', g''⟩, hrun, hrs, _⟩ := h
      have hge : g.tick ≤ GW.GCall.tick c := hhead c rfl
      obtain ⟨hr₁, hg₁⟩ := GW.stepCall_gate_ok hge hstep
      intro r hr
      rw [← hrs] at hr
      cases hr with
      | head => exact hr₁
      | tail _ hmem =>
        refine ih g₁ rs' g'' (by rw [hrun]) hchain.tail ?_ r hmem
        intro c2 hc2
        have hcc := List.chain'_cons'.mp hchain
        have h2 := hcc.1 c2 hc2
        omega
  · intro g call hlt
    cases call with
    | getDetails t c st? =>
      refine ⟨.details (.error "Tick is out of order"), ?_, rfl⟩
      simp only [GW.GCall.tick] at hlt
      simp [GW.stepCall, GW.Galaxy.get_details, GW.update_tick_lt hlt]
    | buildCall t c st =>
      refine ⟨.event (.error "Tick is out of order"), ?_, rfl⟩
      simp only [GW.GCall.tick] at hlt
      simp [GW.stepCall, GW.Galaxy.build, GW.update_tick_lt hlt]
    | statsCall t =>
      refine ⟨.statsOut (.error "Tick is out of order"), ?_, rfl⟩
      simp only [GW.GCall.tick] at hlt
      simp [GW.stepCall, GW.Galaxy.stats, GW.update_tick_lt hlt]

/-- Claim C2 witness: a non-decreasing two-call run is accepted (no
result is the out-of-order rejection), and a stale call at tick 3 against
galaxy tick 5 is rejected in place. -/
theorem claim_C2_witness :
    GW.CallResult.isOutOfOrder
      (GW.CallResult.statsOut (.ok (0, []))) = false ∧
    ∃ r, GW.stepCall { GW.galaxyEmpty with tick := 5 }
        (GW.GCall.statsCall 3) =
          some (r, { GW.galaxyEmpty with tick := 5 }) ∧
      r.isOutOfOrder = true :=
  ⟨claim_C2.1 GW.galaxyEmpty
      [GW.GCall.statsCall 1, GW.GCall.statsCall 2] _ _ rfl
      (by
        rw [List.chain'_cons']
        refine ⟨?_, List.chain'_singleton _⟩
        intro y hy
        simp only [List.head?_cons, Option.mem_def,
          Option.some.injEq] at hy
        subst hy
        exact Nat.le_succ 1)
      (by
        intro c0 hc0
        simp only [List.head?_cons, Option.mem_def,
          Option.some.injEq] at hc0
        subst hc0
        exact Nat.zero_le _)
      (GW.CallResult.statsOut (.ok (0, []))) (List.mem_cons_self _ _),
    claim_C2.2 { GW.galaxyEmpty with tick := 5 } (GW.GCall.statsCall 3)
      (by decide)⟩

namespace GW

theorem cyclesGained_self (p a : Nat) : cyclesGained p a a = 0 :=
  Nat.sub_self _

theorem cyclesGained_add {p a x b : Nat} (h1 : a ≤ x) (h2 : x ≤ b) :
    cyclesGained p a x + cyclesGained p x b = cyclesGained p a b := by
  unfold cyclesGained
  have d1 : a / (3600 / p) ≤ x / (3600 / p) := Nat.div_le_div_right h1
  have d2 : x / (3600 / p) ≤ b / (3600 / p) := Nat.div_le_div_right h2
  omega

theorem produceRes_formula {cur new p cap res : Nat} (hp : p ≤ 3600)
    (hcap : res + cyclesGained p cur new ≤ cap) :
    System.produceRes cur new p cap res =
      some (res + cyclesGained p cur new) := by
  unfold System.produceRes
  by_cases hpos : p > 0
  · rw [if_pos hpos]
    have hi : 0 < 3600 / p := Nat.div_pos hp hpos
    rw [if_neg (by omega : ¬ 3600 / p = 0)]
    show some (min (res + cyclesGained p cur new) cap) = _
    rw [Nat.min_eq_left hcap]
  · rw [if_neg hpos]
    have hp0 : p = 0 := by omega
    subst hp0
    have hz : cyclesGained 0 cur new = 0 := by
      unfold cyclesGained
      simp
    rw [hz, Nat.add_zero]

theorem update_nil_formula {cfg : GalaxyConfig} {s : System} {b : Nat}
    (hev : s.events = []) (hab : s.current_tick ≤ b)
    (hm : (System.get_production cfg s).metal ≤ 3600)
    (hc : (System.get_production cfg s).crew ≤ 3600)
    (hw : (System.get_production cfg s).water ≤ 3600)
    (hcm : s.resources.metal + cyclesGained
      (System.get_production cfg s).metal s.current_tick b ≤
      (System.get_storage cfg s).metal)
    (hcc : s.resources.crew + cyclesGained
      (System.get_production cfg s).crew s.current_tick b ≤
      (System.get_storage cfg s).crew)
    (hcw : s.resources.water + cyclesGained
      (System.get_production cfg s).water s.current_tick b ≤
      (System.get_storage cfg s).water) :
    System.update_to_tick cfg b s =
      some { s with
        current_tick := b
        resources := ⟨s.resources.metal + cyclesGained
            (System.get_production cfg s).metal s.current_tick b,
          s.resources.crew + cyclesGained
            (System.get_production cfg s).crew s.current_tick b,
          s.resources.water + cyclesGained
            (System.get_production cfg s).water s.current_tick b⟩ } := by
  by_cases hba : b ≤ s.current_tick
  · have hbeq : b = s.current_tick := by omega
    subst hbeq
    unfold System.update_to_tick
    rw [if_pos (le_refl _)]
    obtain ⟨ct, evs, ⟨rm, rc, rw0⟩, strs⟩ := s
    simp [cyclesGained_self]
  · unfold System.update_to_tick
    rw [if_neg hba]
    rw [process_events_no_due b s (by rw [hev]; intro e he; cases he)]
    simp only [Option.some_bind]
    rw [produceRes_formula hm hcm]
    simp only [Option.some_bind]
    rw [produceRes_formula hw hcw]
    simp only [Option.some_bind]
    rw [produceRes_formula hc hcc]
    simp only [Option.some_bind]

theorem iterTicks_eq (cfg : GalaxyConfig) :
    ∀ (n : Nat) (s : System) (b : Nat),
      s.current_tick + n = b → s.events = [] →
      (System.get_production cfg s).metal ≤ 3600 →
      (System.get_production cfg s).crew ≤ 3600 →
      (System.get_production cfg s).water ≤ 3600 →
      s.resources.metal + cyclesGained
        (System.get_production cfg s).metal s.current_tick b ≤
        (System.get_storage cfg s).metal →
      s.resources.crew + cyclesGained
        (System.get_production cfg s).crew s.current_tick b ≤
        (System.get_storage cfg s).crew →
      s.resources.water + cyclesGained
        (System.get_production cfg s).water s.current_tick b ≤
        (System.get_storage cfg s).water →
      iterTicks cfg n s = System.update_to_tick cfg b s := by
  intro n
  induction n with
  | zero =>
    intro s b hb hev _ _ _ _ _ _
    have hbeq : b = s.current_tick := by omega
    subst hbeq
    unfold iterTicks System.update_to_tick
    rw [if_pos (le_refl _)]
  | succ k ih =>
    intro s b hb hev hm hc hw hcm hcc hcw
    have h1b : s.current_tick + 1 ≤ b := by omega
    have htel : ∀ p, cyclesGained p s.current_tick (s.current_tick + 1) +
        cyclesGained p (s.current_tick + 1) b =
        cyclesGained p s.current_tick b :=
      fun p => cyclesGained_add (Nat.le_succ _) h1b
    have hstep := update_nil_formula (s := s)
      (b := s.current_tick + 1) hev (Nat.le_succ _) hm hc hw
      (by have := htel (System.get_production cfg s).metal; omega)
      (by have := htel (System.get_production cfg s).crew; omega)
      (by have := htel (System.get_production cfg s).water; omega)
    unfold iterTicks
    rw [hstep]
    simp only [Option.some_bind]
    set s₁ : System := { s with
      current_tick := s.current_tick + 1
      resources := ⟨s.resources.metal + cyclesGained
          (System.get_production cfg s).metal s.current_tick
          (s.current_tick + 1),
        s.resources.crew + cyclesGained
          (System.get_production cfg s).crew s.current_tick
          (s.current_tick + 1),
        s.resources.water + cyclesGained
          (System.get_production cfg s).water s.current_tick
          (s.current_tick + 1)⟩ } with hR
    have hev1 : s₁.events = [] := by rw [hR]; exact hev
    have hct1 : s₁.current_tick = s.current_tick + 1 := by rw [hR]
    have hstr1 : s₁.structures = s.structures := by rw [hR]
    have hev1' : s₁.events = s.events := by rw [hR]
    have hprod1 : System.get_production cfg s₁ =
        System.get_production cfg s := by rw [hR]; rfl
    have hstor1 : System.get_storage cfg s₁ =
        System.get_storage cfg s := by rw [hR]; rfl
    have hresm : s₁.resources.metal = s.resources.metal + cyclesGained
        (System.get_production cfg s).metal s.current_tick
        (s.current_tick + 1) := by rw [hR]
    have hresc : s₁.resources.crew = s.resources.crew + cyclesGained
        (System.get_production cfg s).crew s.current_tick
        (s.current_tick + 1) := by rw [hR]
    have hresw : s₁.resources.water = s.resources.water + cyclesGained
        (System.get_production cfg s).water s.current_tick
        (s.current_tick + 1) := by rw [hR]
    have hstr1b : s₁.structures = s.structures := hstr1
    rw [ih s₁ b (by rw [hct1]; omega) hev1
      (by rw [hprod1]; exact hm)
      (by rw [hprod1]; exact hc)
      (by rw [hprod1]; exact hw)
      (by
        rw [hprod1, hstor1, hresm, hct1]
        have := htel (System.get_production cfg s).metal
        omega)
      (by
        rw [hprod1, hstor1, hresc, hct1]
        have := htel (System.get_production cfg s).crew
        omega)
      (by
        rw [hprod1, hstor1, hresw, hct1]
        have := htel (System.get_production cfg s).water
        omega)]
    rw [update_nil_formula (s := s₁) (b := b) hev1
      (by rw [hct1]; omega)
      (by rw [hprod1]; exact hm)
      (by rw [hprod1]; exact hc)
      (by rw [hprod1]; exact hw)
      (by
        rw [hprod1, hstor1, hresm, hct1]
        have := htel (System.get_production cfg s).metal
        omega)
      (by
        rw [hprod1, hstor1, hresc, hct1]
        have := htel (System.get_production cfg s).crew
        omega)
      (by
        rw [hprod1, hstor1, hresw, hct1]
        have := htel (System.get_production cfg s).water
        omega)]
    rw [update_nil_formula (s := s) (b := b) hev
      (by omega) hm hc hw hcm hcc hcw]
    simp only [hprod1, hct1, hstr1, hev1', hresm, hresc, hresw]
    simp only [Option.some.injEq, System.mk.injEq, Resources.mk.injEq,
      true_and, and_true]
    have t1 := htel (System.get_production cfg s).metal
    have t2 := htel (System.get_production cfg s).crew
    have t3 := htel (System.get_production cfg s).water
    refine ⟨by omega, by omega, by omega⟩

end GW

/-- Claim C1: advance decomposition. For a system with no pending events
(so its production rate is the fixed aggregate `P` of its structures, each
positive component at most 3600 so the cycle interval `3600/P` is
nonzero) and storage large enough never to clamp, advancing one tick at a
time from `a` to `b` equals one `update_to_tick(b)` call, and the units
gained per resource equal `floor(b / (3600/P)) - floor(a / (3600/P))`. -/
theorem claim_C1 :
    ∀ (cfg : GW.GalaxyConfig) (s : GW.System) (a b : Nat),
      s.current_tick = a → a ≤ b → s.events = [] →
      (GW.System.get_production cfg s).metal ≤ 3600 →
      (GW.System.get_production cfg s).crew ≤ 3600 →
      (GW.System.get_production cfg s).water ≤ 3600 →
      s.resources.metal + GW.cyclesGained
        (GW.System.get_production cfg s).metal a b ≤
        (GW.System.get_storage cfg s).metal →
      s.resources.crew + GW.cyclesGained
        (GW.System.get_production cfg s).crew a b ≤
        (GW.System.get_storage cfg s).crew →
      s.resources.water + GW.cyclesGained
        (GW.System.get_production cfg s).water a b ≤
        (GW.System.get_storage cfg s).water →
      GW.iterTicks cfg (b - a) s = GW.System.update_to_tick cfg b s ∧
      GW.System.update_to_tick cfg b s = some { s with
        current_tick := b
        resources := ⟨s.resources.metal + GW.cyclesGained
            (GW.System.get_production cfg s).metal a b,
          s.resources.crew + GW.cyclesGained
            (GW.System.get_production cfg s).crew a b,
          s.resources.water + GW.cyclesGained
            (GW.System.get_production cfg s).water a b⟩ } := by
  intro cfg s a b hsa hab hev hm hc hw hcm hcc hcw
  subst hsa
  constructor
  · exact GW.iterTicks_eq cfg (b - s.current_tick) s b (by omega) hev
      hm hc hw hcm hcc hcw
  · exact GW.update_nil_formula hev hab hm hc hw hcm hcc hcw

/-- Claim C1 witness: the decomposition applied to the test scenario
(2 metal, 1 crew, 3 water per hour; two-hour advance, caps far away). -/
theorem claim_C1_witness :
    GW.iterTicks GW.cfgProd (7200 - 0) GW.sysProd =
      GW.System.update_to_tick GW.cfgProd 7200 GW.sysProd ∧
    GW.System.update_to_tick GW.cfgProd 7200 GW.sysProd = some
      { GW.sysProd with
        current_tick := 7200
        resources := ⟨10 + GW.cyclesGained 2 0 7200,
          3 + GW.cyclesGained 1 0 7200,
          5 + GW.cyclesGained 3 0 7200⟩ } :=
  claim_C1 GW.cfgProd GW.sysProd 0 7200 rfl (by decide) rfl
    (by decide) (by decide) (by decide)
    (by decide) (by decide) (by decide)
